import Mathlib

set_option maxRecDepth 40000

/- Verification development for the syntactic front end of the Trinterpreter
   repository (src/src/parser.rs): the Pratt / recursive-descent parser and
   the AST it produces, together with the canonical Display rendering.

   The Rust `Peekable<Lexer>` token source is modelled as a `List Lexeme`;
   every parser function threads the remaining stream explicitly and the
   `anyhow::Result` type is modelled by `Except`.  Rust panics and the fuel
   used to express the recursion are separate error kinds, so that neither
   can be confused with an ordinary syntax error.  Numbers (`f64` in the
   source) are modelled as rationals; every literal appearing in the claims
   is exactly representable. -/

/-- Tokens of the language, with the payloads the parser consumes
(`Token` lives in `crate::lexer`; the constructor set is the one matched on
by parser.rs, the payload of `Number` mirrors `Token::Number(raw, value)`). -/
inductive Token where
  | String (s : String)
  | Number (raw : String) (val : Rat)
  | Ident (s : String)
  | True
  | False
  | Fn
  | Return
  | If
  | Else
  | Print
  | Let
  | LParen
  | RParen
  | LBrace
  | RBrace
  | LBracket
  | RBracket
  | Comma
  | Semicolon
  | Assign
  | AssignEqual
  | Bang
  | BangEqual
  | Plus
  | Minus
  | Star
  | Slash
  | Less
  | LessEqual
  | Greater
  | GreaterEqual
  | And
  | Or
  | Len
  | First
  | Last
  | Rest
  | Push
  | EOF
deriving DecidableEq, Repr

/-- TokenKind of the source: a token together with its source line. -/
structure TokenKind where
  token : Token
  line : Nat
deriving DecidableEq, Repr

/-- One item produced by the lexer iterator: `Result<TokenKind, LexError>`. -/
abbrev Lexeme := Except String TokenKind

/-- Failure kinds of the embedded parser.  `err` is an `anyhow::Result` error
of the source; `panicked` marks a Rust panic (which aborts the whole parse);
`fuelOut` marks exhaustion of the fuel that expresses the recursion and is
proved unreachable for sufficient fuel. -/
inductive PErr where
  | err (msg : String)
  | panicked (msg : String)
  | fuelOut
deriving DecidableEq, Repr

/-- The operator enumeration `Op` of parser.rs (the `Assing` typo is the
source spelling). -/
inductive Op where
  | Plus
  | Minus
  | Star
  | Slash
  | Bang
  | Grouped
  | Assing
  | Fn
  | BangEqual
  | LessEqual
  | GreaterEqual
  | Less
  | Greater
  | AssignEqual
  | Or
  | And
  | Index
  | ReAssign
  | Len
  | First
  | Last
  | Push
  | Rest
deriving DecidableEq, Repr

mutual
/-- The value-literal enumeration of parser.rs, named `Type` in the source
(`Type` is a Lean keyword, hence `Ty`). -/
inductive Ty where
  | String (s : String)
  | Number (n : Rat)
  | Ident (s : String)
  | Bool (b : Bool)
  | Arr (v : List AST)
  | Nil

/-- The AST of parser.rs.  The `Typ` constructor is `AST::Type` in the source
(`Type` is a Lean keyword); `calle` keeps the source field spelling. -/
inductive AST where
  | Typ (t : Ty)
  | Expr (op : Op) (operands : List AST)
  | Print (v : AST)
  | Let (ident : String) (value : AST)
  | Fn (name : Option String) (params : List String) (body : List AST)
  | Call (calle : AST) (args : List AST)
  | Return (value : AST)
  | If (condition : AST) (yes : List AST) (no : Option (List AST))
end

/-- Display form of `Op` (impl fmt::Display for Op in the source). -/
def Op.render : Op → String
  | .Minus => "-"
  | .ReAssign => "="
  | .Plus => "+"
  | .Star => "*"
  | .Assing => "="
  | .BangEqual => "!="
  | .AssignEqual => "=="
  | .LessEqual => "<="
  | .GreaterEqual => ">="
  | .Less => "<"
  | .Greater => ">"
  | .Slash => "/"
  | .Bang => "!"
  | .And => "and"
  | .Or => "or"
  | .Fn => "call"
  | .Grouped => "group"
  | .Len => "len"
  | .Index => "index"
  | .First => "First"
  | .Last => "Last"
  | .Push => "Push"
  | .Rest => "Rest"

/-- Modelled from the spec: decimal digits of the fractional part `n / d`
(with `n < d`) of a non-integral number, as printed by natural float
formatting (the source delegates this branch to the Rust standard library
f64 Display, which is not part of this repository). -/
def fracDigits : Nat → Nat → Nat → String
  | 0, _, _ => ""
  | f + 1, n, d =>
    if n = 0 then "" else
      toString (n * 10 / d) ++ fracDigits f (n * 10 % d) d

/-- Rendering of `Type::Number` (impl fmt::Display for Type).  The integral
test `n == n.trunc()` becomes `q.den = 1`; the integral branch prints the
value followed by `.0` exactly as the source does.  The non-integral branch
uses `fracDigits`, modelled from the spec (natural float formatting). -/
def renderNum (q : Rat) : String :=
  if q.den = 1 then toString q.num ++ ".0"
  else if q.num < 0 then
    "-" ++ toString ((-q.num).toNat / q.den) ++ "." ++
      fracDigits 30 ((-q.num).toNat % q.den) q.den
  else
    toString (q.num.toNat / q.den) ++ "." ++ fracDigits 30 (q.num.toNat % q.den) q.den

mutual
/-- Display form of `Type` (impl fmt::Display for Type): strings and
identifiers print bare, booleans by their debug form, arrays bracketed and
comma separated. -/
def Ty.render : Ty → String
  | .String s => s
  | .Number n => renderNum n
  | .Nil => "nil"
  | .Bool b => if b then "true" else "false"
  | .Ident i => i
  | .Arr v => "[" ++ renderCommaSep v ++ "]"

/-- Display form of `AST` (impl fmt::Display for AST), reproduced with all
of the source quirks: a named `Fn` prints its bare name, an anonymous one
prints `(fun`, both end in a lone closing brace; `Let` prints the identifier
directly followed by the value; `If` prints a trailing space after the yes
block. -/
def AST.render : AST → String
  | .Typ i => i.render
  | .Print i => i.render
  | .Expr head rest => "(" ++ head.render ++ renderSpaced rest ++ ")"
  | .Fn name params body =>
    (match name with
     | some val => val
     | none => "(fun")
    ++ String.join (params.map (fun p => " " ++ p))
    ++ renderSpaced body
    ++ "\x7d"
  | .Call calle args => "(" ++ calle.render ++ renderSpaced args ++ ")"
  | .If condition yes no =>
    "if " ++ condition.render ++ " \x7b" ++ renderSpaced yes ++ " \x7d " ++
    (match no with
     | some no => "else \x7b" ++ renderSpaced no ++ " \x7d"
     | none => "")
  | .Return value => "return " ++ value.render
  | .Let ident value => ident ++ value.render

/-- Helper for the `for` loops of the Display impls writing a space before
each element. -/
def renderSpaced : List AST → String
  | [] => ""
  | a :: rest => " " ++ a.render ++ renderSpaced rest

/-- Helper for the array branch of Display for Type: comma separation. -/
def renderCommaSep : List AST → String
  | [] => ""
  | [a] => a.render
  | a :: rest => a.render ++ ", " ++ renderCommaSep rest
end

/-- postfix_binding_power of the source: call application, indexing and
`len` bind at 13 on the left, reassignment at 12; everything else is not a
postfix operator.  (The source returns `(u8, ())`.) -/
def post_binding_power : Op → Option (Nat × Unit)
  | .Fn | .Index | .Len => some (13, ())
  | .ReAssign => some (12, ())
  | _ => none

/-- prefix_binding_power of the source: unary plus, minus and bang bind at
11 on the right; on any other operator the source panics, modelled by
`none` (the caller turns it into the panic). -/
def pre_binding_power : Op → Option (Unit × Nat)
  | .Plus | .Minus | .Bang => some ((), 11)
  | _ => none

/-- infix_binding_power of the source. -/
def inf_binding_power : Op → Option (Nat × Nat)
  | .And | .Or => some (3, 4)
  | .BangEqual | .AssignEqual | .Less | .LessEqual | .Greater | .GreaterEqual =>
    some (5, 6)
  | .Plus | .Minus => some (7, 8)
  | .Star | .Slash => some (9, 10)
  | _ => none

/-- The token-to-operator match opening the led loop of parse_expression;
`none` is the `_ => break` arm. -/
def tokenToOp : Token → Option Op
  | .Plus => some .Plus
  | .Assign => some .ReAssign
  | .Minus => some .Minus
  | .Star => some .Star
  | .Slash => some .Slash
  | .LParen => some .Fn
  | .AssignEqual => some .AssignEqual
  | .Bang => some .Bang
  | .BangEqual => some .BangEqual
  | .Less => some .Less
  | .LessEqual => some .LessEqual
  | .Greater => some .Greater
  | .GreaterEqual => some .GreaterEqual
  | .And => some .And
  | .Or => some .Or
  | .LBracket => some .Index
  | _ => none

/-- is_next_token of the source: peek and compare, consuming nothing. -/
def is_next_token (expected : Token) (ls : List Lexeme) : Bool :=
  match ls with
  | .ok tk :: _ => tk.token == expected
  | _ => false

/-- Modelled from the spec: the Display form of a token, used only inside
error messages (`Token` and its Display live in `crate::lexer`, which is not
under src/; no claim depends on message texts). -/
def tokenStr : Token → String
  | .Semicolon => ";"
  | .LParen => "("
  | .RParen => ")"
  | .LBrace => "\x7b"
  | .RBrace => "\x7d"
  | .LBracket => "["
  | .RBracket => "]"
  | .Comma => ","
  | _ => "token"

/-- expect_peek of the source: consume the next token when it is the
expected one, otherwise report an error without consuming (a lexer error is
forwarded, end of stream is its own message). -/
def expect_peek (tok : Token) (ls : List Lexeme) : Except PErr Unit × List Lexeme :=
  match ls with
  | .ok next :: rest =>
    if next.token == tok then (.ok (), rest)
    else
      (.error (.err ("[line: " ++ toString next.line ++ "] Error: expected " ++ tokenStr tok)), ls)
  | .error e :: _ => (.error (.err e), ls)
  | [] => (.error (.err ("[End of line ] Error: expected " ++ tokenStr tok)), [])

/-- Sequencing of parsing steps, the `?` operator of the source: the stream
is threaded on, errors short-circuit carrying the stream reached so far. -/
def pbind (x : Except PErr α × List Lexeme)
    (f : α → List Lexeme → Except PErr β × List Lexeme) :
    Except PErr β × List Lexeme :=
  match x with
  | (.ok a, ls) => f a ls
  | (.error e, ls) => (.error e, ls)

/-- The for-loop body of parse_block: statements are collected until the
first error, which is returned instead of the block. -/
def collect_block : List (Except String AST) → Except String (List AST)
  | [] => .ok []
  | .ok a :: rest =>
    match collect_block rest with
    | .ok l => .ok (a :: l)
    | .error e => .error e
  | .error e :: _ => .error e

/-- The statement dispatch of parse_statement: which sub-parser the peeked
token selects.  `none` covers the two break arms (`Token::EOF` and the
catch-all). -/
inductive Dispatch where
  | dFn
  | dReturn
  | dIf
  | dPrint
  | dLet
  | dExpr
deriving DecidableEq, Repr

/-- The token match of the parse_statement loop (parser.rs lines 59-82). -/
def stmt_dispatch : Token → Option Dispatch
  | .Fn => some .dFn
  | .Return => some .dReturn
  | .If => some .dIf
  | .Print => some .dPrint
  | .Let => some .dLet
  | .EOF => none
  | .LParen | .LBracket | .Number _ _ | .String _ | .Ident _
  | .Bang | .Minus | .True | .Len | .First | .Last | .Rest | .Push | .False =>
    some .dExpr
  | _ => none

mutual

/-- parse_expression of the source (parser.rs lines 90-251), with fuel for
the recursion.  The empty stream yields a `Nil` literal; a lexer error is
consumed and forwarded; the `push` built-in returns directly (the source
`return Ok(..)` skips the led loop); every other token goes through
`nud_step` and then the led loop. -/
def parse_expression (fuel : Nat) (prev_binding : Nat) (ls : List Lexeme) :
    Except PErr AST × List Lexeme :=
  match fuel with
  | 0 => (.error .fuelOut, [])
  | fuel + 1 =>
    match ls with
    | [] => (.ok (.Typ .Nil), [])
    | .error e :: rest => (.error (.err e), rest)
    | .ok l_side :: rest =>
      match l_side.token with
      | .Push =>
        pbind (expect_peek .LParen rest) fun _ ls1 =>
        pbind (parse_expression fuel 0 ls1) fun left ls2 =>
        pbind (expect_peek .Comma ls2) fun _ ls3 =>
        pbind (parse_expression fuel 0 ls3) fun right ls4 =>
        pbind (expect_peek .RParen ls4) fun _ ls5 =>
        pbind (expect_peek .Semicolon ls5) fun _ ls6 =>
        (.ok (.Expr .Push [left, right]), ls6)
      | t =>
        pbind (nud_step fuel t l_side.line rest) fun t0 ls1 =>
        led_loop fuel prev_binding t0 ls1

/-- The null-denotation match of parse_expression: how the consumed token
`t` starts an expression.  `rest` is the stream after `t`; the catch-all is
the `Expected an EXPRESSION` error of the source. -/
def nud_step (fuel : Nat) (t : Token) (line : Nat) (rest : List Lexeme) :
    Except PErr AST × List Lexeme :=
  match fuel with
  | 0 => (.error .fuelOut, [])
  | fuel + 1 =>
    match t with
    | .String v => (.ok (.Typ (.String v)), rest)
    | .Number _ num => (.ok (.Typ (.Number num)), rest)
    | .True => (.ok (.Typ (.Bool true)), rest)
    | .False => (.ok (.Typ (.Bool false)), rest)
    | .Fn => parse_fun fuel rest
    | .If => parse_if fuel rest
    | .LBracket => parse_array fuel rest
    | .Ident id => (.ok (.Typ (.Ident id)), rest)
    | .Assign =>
      pbind (parse_expression fuel 0 rest) fun r_side ls1 =>
      (.ok (.Expr .Assing [r_side]), ls1)
    | .LParen =>
      pbind (parse_expression fuel 0 rest) fun r_side ls1 =>
      pbind (expect_peek .RParen ls1) fun _ ls2 =>
      (.ok (.Expr .Grouped [r_side]), ls2)
    | .Len =>
      pbind (expect_peek .LParen rest) fun _ ls1 =>
      pbind (parse_expression fuel 0 ls1) fun right ls2 =>
      pbind (expect_peek .RParen ls2) fun _ ls3 =>
      (.ok (.Expr .Len [right]), ls3)
    | .First =>
      pbind (expect_peek .LParen rest) fun _ ls1 =>
      pbind (parse_expression fuel 0 ls1) fun right ls2 =>
      pbind (expect_peek .RParen ls2) fun _ ls3 =>
      (.ok (.Expr .First [right]), ls3)
    | .Last =>
      pbind (expect_peek .LParen rest) fun _ ls1 =>
      pbind (parse_expression fuel 0 ls1) fun right ls2 =>
      pbind (expect_peek .RParen ls2) fun _ ls3 =>
      (.ok (.Expr .Last [right]), ls3)
    | .Rest =>
      pbind (expect_peek .LParen rest) fun _ ls1 =>
      pbind (parse_expression fuel 0 ls1) fun right ls2 =>
      pbind (expect_peek .RParen ls2) fun _ ls3 =>
      (.ok (.Expr .Rest [right]), ls3)
    | .Bang =>
      match pre_binding_power .Bang with
      | some (_, r_binding) =>
        pbind (parse_expression fuel r_binding rest) fun r_side ls1 =>
        (.ok (.Expr .Bang [r_side]), ls1)
      | none => (.error (.panicked "bad operation"), rest)
    | .Minus =>
      match pre_binding_power .Minus with
      | some (_, r_binding) =>
        pbind (parse_expression fuel r_binding rest) fun r_side ls1 =>
        (.ok (.Expr .Minus [r_side]), ls1)
      | none => (.error (.panicked "bad operation"), rest)
    | _ =>
      (.error (.err ("[line " ++ toString line ++ "] Error: Expected an EXPRESSION")), rest)

/-- The led loop of parse_expression (parser.rs lines 176-248): while the
peeked token maps to an operator, try it as postfix/call-like, then as
infix; a left binding power below `prev_binding` or an unknown token stops
the loop.  The catch-all postfix arm is the source panic. -/
def led_loop (fuel : Nat) (prev_binding : Nat) (to_return : AST) (ls : List Lexeme) :
    Except PErr AST × List Lexeme :=
  match fuel with
  | 0 => (.error .fuelOut, [])
  | fuel + 1 =>
    match ls with
    | .ok tk :: restl =>
      match tokenToOp tk.token with
      | none => (.ok to_return, ls)
      | some op =>
        match post_binding_power op with
        | some (l_binding, _) =>
          if l_binding < prev_binding then (.ok to_return, ls)
          else
            match op with
            | .Fn =>
              pbind (expect_peek .LParen ls) fun _ ls1 =>
              pbind (parse_args fuel ls1) fun args ls2 =>
              pbind (expect_peek .RParen ls2) fun _ ls3 =>
              led_loop fuel prev_binding (.Expr .Fn [.Call to_return args]) ls3
            | .ReAssign =>
              pbind (parse_expression fuel 0 ls) fun r_side ls1 =>
              pbind (expect_peek .Semicolon ls1) fun _ ls2 =>
              led_loop fuel prev_binding (.Expr .ReAssign [to_return, r_side]) ls2
            | .Index =>
              pbind (expect_peek .LBracket ls) fun _ ls1 =>
              pbind (parse_expression fuel 0 ls1) fun r_side ls2 =>
              pbind (expect_peek .RBracket ls2) fun _ ls3 =>
              led_loop fuel prev_binding (.Expr .Index [to_return, r_side]) ls3
            | _ => (.error (.panicked "should not error from postfix"), ls)
        | none =>
          match inf_binding_power op with
          | some (l_binding, r_binding) =>
            if l_binding < prev_binding then (.ok to_return, ls)
            else
              pbind (parse_expression fuel r_binding restl) fun r_side ls1 =>
              led_loop fuel prev_binding (.Expr op [to_return, r_side]) ls1
          | none => (.ok to_return, ls)
    | _ => (.ok to_return, ls)

/-- parse_statement of the source (parser.rs lines 46-88): the top-level
loop collecting one result per statement.  A lexer error is pushed and its
item consumed; `EOF` or an unrecognized token breaks; an `anyhow` error from
a sub-parser is collected and the loop continues; a panic aborts. -/
def parse_statement (fuel : Nat) (ls : List Lexeme) :
    Except PErr (List (Except String AST)) × List Lexeme :=
  match fuel with
  | 0 => (.error .fuelOut, [])
  | fuel + 1 =>
    match ls with
    | [] => (.ok [], [])
    | .error e :: restl =>
      pbind (parse_statement fuel restl) fun stmts ls1 =>
      (.ok (.error e :: stmts), ls1)
    | .ok tk :: _ =>
      match stmt_dispatch tk.token with
      | none => (.ok [], ls)
      | some d =>
        match run_dispatch fuel d ls with
        | (.ok ast, ls1) =>
          pbind (parse_statement fuel ls1) fun stmts ls2 =>
          (.ok (.ok ast :: stmts), ls2)
        | (.error (.err m), ls1) =>
          pbind (parse_statement fuel ls1) fun stmts ls2 =>
          (.ok (.error m :: stmts), ls2)
        | (.error e, ls1) => (.error e, ls1)

/-- Runs the sub-parser selected by `stmt_dispatch`. -/
def run_dispatch (fuel : Nat) (d : Dispatch) (ls : List Lexeme) :
    Except PErr AST × List Lexeme :=
  match fuel with
  | 0 => (.error .fuelOut, [])
  | fuel + 1 =>
    match d with
    | .dFn => parse_fun fuel ls
    | .dReturn => parse_return fuel ls
    | .dIf => parse_if fuel ls
    | .dPrint => parse_print fuel ls
    | .dLet => parse_let fuel ls
    | .dExpr => parse_expression_statements fuel ls

/-- parse_let of the source (parser.rs lines 287-318): optional `let`
keyword, required identifier, optional value introduced by peeking `=`
(which is left for parse_expression to consume, producing the `Assing`
wrapper), default `Nil`, required semicolon.  A lexer error while peeking
for `=` panics in the source. -/
def parse_let (fuel : Nat) (ls : List Lexeme) : Except PErr AST × List Lexeme :=
  match fuel with
  | 0 => (.error .fuelOut, [])
  | fuel + 1 =>
    let ls := if is_next_token .Let ls then ls.tail else ls
    match ls with
    | [] => (.error (.err "[End of line] Error: Expected an IDENTIFIER"), [])
    | .error e :: restl => (.error (.err e), restl)
    | .ok token :: restl =>
      match token.token with
      | .Ident id =>
        pbind
          (match restl with
           | .ok ⟨.Assign, _⟩ :: _ => parse_expression fuel 0 restl
           | .error e :: _ => (.error (.panicked e), restl)
           | _ => (.ok (.Typ .Nil), restl))
          fun value ls2 =>
        pbind (expect_peek .Semicolon ls2) fun _ ls3 =>
        (.ok (.Let id value), ls3)
      | _ =>
        (.error (.err ("[line: " ++ toString token.line ++ "] Error: Expected IDENTIFIER")), restl)

/-- parse_return of the source: the keyword item is consumed unconditionally,
then one expression and a semicolon. -/
def parse_return (fuel : Nat) (ls : List Lexeme) : Except PErr AST × List Lexeme :=
  match fuel with
  | 0 => (.error .fuelOut, [])
  | fuel + 1 =>
    pbind (parse_expression fuel 0 ls.tail) fun value ls1 =>
    pbind (expect_peek .Semicolon ls1) fun _ ls2 =>
    (.ok (.Return value), ls2)

/-- parse_if of the source: optional `if` keyword, condition expression,
braced yes-block, optional `else` with braced no-block. -/
def parse_if (fuel : Nat) (ls : List Lexeme) : Except PErr AST × List Lexeme :=
  match fuel with
  | 0 => (.error .fuelOut, [])
  | fuel + 1 =>
    let ls := if is_next_token .If ls then ls.tail else ls
    pbind (parse_expression fuel 0 ls) fun condition ls1 =>
    pbind (expect_peek .LBrace ls1) fun _ ls2 =>
    pbind (parse_block fuel ls2) fun yes ls3 =>
    pbind (expect_peek .RBrace ls3) fun _ ls4 =>
    match ls4 with
    | .ok ⟨.Else, _⟩ :: restl =>
      pbind (expect_peek .LBrace restl) fun _ ls5 =>
      pbind (parse_block fuel ls5) fun no ls6 =>
      pbind (expect_peek .RBrace ls6) fun _ ls7 =>
      (.ok (.If condition yes (some no)), ls7)
    | _ => (.ok (.If condition yes none), ls4)

/-- parse_block of the source (parser.rs lines 360-370): run the statement
loop, then return the statements up to the first error, or that error. -/
def parse_block (fuel : Nat) (ls : List Lexeme) : Except PErr (List AST) × List Lexeme :=
  match fuel with
  | 0 => (.error .fuelOut, [])
  | fuel + 1 =>
    pbind (parse_statement fuel ls) fun results ls1 =>
    match collect_block results with
    | .ok stmts => (.ok stmts, ls1)
    | .error m => (.error (.err m), ls1)

/-- parse_fun of the source (parser.rs lines 372-398): optional `fn`
keyword, optional name, parenthesized parameters, braced body. -/
def parse_fun (fuel : Nat) (ls : List Lexeme) : Except PErr AST × List Lexeme :=
  match fuel with
  | 0 => (.error .fuelOut, [])
  | fuel + 1 =>
    let ls := if is_next_token .Fn ls then ls.tail else ls
    let nm : Option String × List Lexeme :=
      match ls with
      | .ok ⟨.Ident v, _⟩ :: restl => (some v, restl)
      | _ => (none, ls)
    pbind (expect_peek .LParen nm.2) fun _ ls1 =>
    pbind (parse_params fuel ls1) fun params ls2 =>
    pbind (expect_peek .RParen ls2) fun _ ls3 =>
    pbind (expect_peek .LBrace ls3) fun _ ls4 =>
    pbind (parse_block fuel ls4) fun body ls5 =>
    pbind (expect_peek .RBrace ls5) fun _ ls6 =>
    (.ok (.Fn nm.1 params body), ls6)

/-- parse_params of the source (parser.rs lines 400-430): a first identifier
unless the list closes immediately, then comma-separated identifiers. -/
def parse_params (fuel : Nat) (ls : List Lexeme) :
    Except PErr (List String) × List Lexeme :=
  match fuel with
  | 0 => (.error .fuelOut, [])
  | fuel + 1 =>
    if is_next_token .RParen ls then params_loop fuel [] ls
    else
      match ls with
      | [] => (.error (.err "[End of line] Error: Expected IDENTIFIER"), [])
      | .error e :: restl => (.error (.err e), restl)
      | .ok token :: restl =>
        match token.token with
        | .Ident id => params_loop fuel [id] restl
        | _ =>
          (.error (.err ("[line: " ++ toString token.line ++ "] Error: Expected IDENTIFIER")), restl)

/-- The while-comma loop of parse_params. -/
def params_loop (fuel : Nat) (acc : List String) (ls : List Lexeme) :
    Except PErr (List String) × List Lexeme :=
  match fuel with
  | 0 => (.error .fuelOut, [])
  | fuel + 1 =>
    if is_next_token .Comma ls then
      match ls.tail with
      | [] => (.error (.err "[End of line] Error: Expected IDENTIFIER"), [])
      | .error e :: restl => (.error (.err e), restl)
      | .ok token :: restl =>
        match token.token with
        | .Ident id => params_loop fuel (acc ++ [id]) restl
        | _ =>
          (.error (.err ("[line: " ++ toString token.line ++ "] Error: Expected IDENTIFIER")), restl)
    else (.ok acc, ls)

/-- parse_args of the source (parser.rs lines 432-445): a first argument
expression unless the list closes immediately, then comma-separated
argument expressions. -/
def parse_args (fuel : Nat) (ls : List Lexeme) : Except PErr (List AST) × List Lexeme :=
  match fuel with
  | 0 => (.error .fuelOut, [])
  | fuel + 1 =>
    if is_next_token .RParen ls then args_loop fuel [] ls
    else
      pbind (parse_expression fuel 0 ls) fun a ls1 =>
      args_loop fuel [a] ls1

/-- The while-comma loop of parse_args. -/
def args_loop (fuel : Nat) (acc : List AST) (ls : List Lexeme) :
    Except PErr (List AST) × List Lexeme :=
  match fuel with
  | 0 => (.error .fuelOut, [])
  | fuel + 1 =>
    if is_next_token .Comma ls then
      pbind (parse_expression fuel 0 ls.tail) fun a ls1 =>
      args_loop fuel (acc ++ [a]) ls1
    else (.ok acc, ls)

/-- parse_print of the source: the keyword item is consumed unconditionally;
an expression must follow, then a semicolon. -/
def parse_print (fuel : Nat) (ls : List Lexeme) : Except PErr AST × List Lexeme :=
  match fuel with
  | 0 => (.error .fuelOut, [])
  | fuel + 1 =>
    match ls.tail with
    | .ok tk :: restl =>
      pbind (parse_expression fuel 0 (.ok tk :: restl)) fun to_return ls2 =>
      pbind (expect_peek .Semicolon ls2) fun _ ls3 =>
      (.ok (.Print to_return), ls3)
    | rest => (.error (.err "expected an expression"), rest)

/-- parse_expression_statements of the source: one expression, then an
optional semicolon. -/
def parse_expression_statements (fuel : Nat) (ls : List Lexeme) :
    Except PErr AST × List Lexeme :=
  match fuel with
  | 0 => (.error .fuelOut, [])
  | fuel + 1 =>
    pbind (parse_expression fuel 0 ls) fun expr ls1 =>
    if is_next_token .Semicolon ls1 then (.ok expr, ls1.tail) else (.ok expr, ls1)

/-- parse_array of the source (parser.rs lines 468-490), entered with the
opening bracket already consumed. -/
def parse_array (fuel : Nat) (ls : List Lexeme) : Except PErr AST × List Lexeme :=
  match fuel with
  | 0 => (.error .fuelOut, [])
  | fuel + 1 => array_loop fuel [] ls

/-- The element loop of parse_array: a closing bracket ends the array, an
element expression is followed by a comma (consumed) or the closing bracket
(left for the next iteration); anything else is an error. -/
def array_loop (fuel : Nat) (acc : List AST) (ls : List Lexeme) :
    Except PErr AST × List Lexeme :=
  match fuel with
  | 0 => (.error .fuelOut, [])
  | fuel + 1 =>
    if is_next_token .RBracket ls then (.ok (.Typ (.Arr acc)), ls.tail)
    else
      pbind (parse_expression fuel 0 ls) fun v ls1 =>
      match ls1 with
      | .ok ⟨.RBracket, _⟩ :: _ => array_loop fuel (acc ++ [v]) ls1
      | .ok ⟨.Comma, _⟩ :: restl => array_loop fuel (acc ++ [v]) restl
      | _ => (.error (.err "expected comma or closing bracket in array literal"), ls1)

end

/-- Fuel sufficient for any stream (proved below): five steps per stream
item plus a constant. -/
def bigFuel (ls : List Lexeme) : Nat := 5 * ls.length + 5

/-- Parser::parse of the source: run the statement loop over the whole
stream. -/
def parse (ls : List Lexeme) : Except PErr (List (Except String AST)) × List Lexeme :=
  parse_statement (bigFuel ls) ls

/-- Longest digit run at the head of a character list. -/
def spanDigits : List Char → List Char × List Char
  | [] => ([], [])
  | c :: cs =>
    if c.isDigit then
      let p := spanDigits cs
      (c :: p.1, p.2)
    else ([], c :: cs)

/-- Longest identifier-character run at the head of a character list. -/
def spanIdent : List Char → List Char × List Char
  | [] => ([], [])
  | c :: cs =>
    if c.isAlpha || c.isDigit || c = '_' then
      let p := spanIdent cs
      (c :: p.1, p.2)
    else ([], c :: cs)

/-- Characters of a string literal up to the closing quote: the content and
the remainder after the quote, or `none` when the quote is missing. -/
def spanString : List Char → Option (List Char × List Char)
  | [] => none
  | c :: cs =>
    if c = '\"' then some ([], cs)
    else
      match spanString cs with
      | some (content, rest) => some (c :: content, rest)
      | none => none

/-- Numeric value of a digit run. -/
def digitsToNat (ds : List Char) : Nat :=
  ds.foldl (fun acc c => 10 * acc + (c.toNat - 48)) 0

/-- Modelled from the spec: keyword recognition of the tokenizer
(`crate::lexer` is not under src/); an identifier that is none of the
keywords stays an identifier. -/
def keywordOr (s : String) : Token :=
  if s = "let" then .Let
  else if s = "fn" then .Fn
  else if s = "return" then .Return
  else if s = "if" then .If
  else if s = "else" then .Else
  else if s = "print" then .Print
  else if s = "true" then .True
  else if s = "false" then .False
  else if s = "and" then .And
  else if s = "or" then .Or
  else if s = "len" then .Len
  else if s = "first" then .First
  else if s = "last" then .Last
  else if s = "rest" then .Rest
  else if s = "push" then .Push
  else .Ident s

/-- Modelled from the spec: the scanning loop of the tokenizer
(`crate::lexer` is not under src/).  Whitespace is skipped with newlines
counting lines; decimal number literals carry raw text and exact value;
identifiers become keywords where applicable; one- and two-character
punctuation as in the operator table; anything else is a lexical error
item. -/
def lex_go : Nat → List Char → Nat → List Lexeme
  | 0, _, _ => [.error "lexer fuel exhausted"]
  | _, [], _ => []
  | f + 1, c :: cs, line =>
    if c = '\n' then lex_go f cs (line + 1)
    else if c = ' ' || c = '\t' || c = '\r' then lex_go f cs line
    else if c.isDigit then
      let ip := spanDigits (c :: cs)
      match ip.2 with
      | '.' :: d :: ds =>
        if d.isDigit then
          let fp := spanDigits (d :: ds)
          let val : Rat :=
            (digitsToNat ip.1 : Rat) + (digitsToNat fp.1 : Rat) / ((10 : Rat) ^ fp.1.length)
          .ok ⟨.Number (String.mk (ip.1 ++ '.' :: fp.1)) val, line⟩ :: lex_go f fp.2 line
        else
          .ok ⟨.Number (String.mk ip.1) (digitsToNat ip.1 : Rat), line⟩ :: lex_go f ip.2 line
      | _ =>
        .ok ⟨.Number (String.mk ip.1) (digitsToNat ip.1 : Rat), line⟩ :: lex_go f ip.2 line
    else if c.isAlpha || c = '_' then
      let p := spanIdent (c :: cs)
      .ok ⟨keywordOr (String.mk p.1), line⟩ :: lex_go f p.2 line
    else if c = '\"' then
      match spanString cs with
      | some (content, rest) => .ok ⟨.String (String.mk content), line⟩ :: lex_go f rest line
      | none => [.error "unterminated string literal"]
    else if c = '=' then
      match cs with
      | '=' :: rest => .ok ⟨.AssignEqual, line⟩ :: lex_go f rest line
      | _ => .ok ⟨.Assign, line⟩ :: lex_go f cs line
    else if c = '!' then
      match cs with
      | '=' :: rest => .ok ⟨.BangEqual, line⟩ :: lex_go f rest line
      | _ => .ok ⟨.Bang, line⟩ :: lex_go f cs line
    else if c = '<' then
      match cs with
      | '=' :: rest => .ok ⟨.LessEqual, line⟩ :: lex_go f rest line
      | _ => .ok ⟨.Less, line⟩ :: lex_go f cs line
    else if c = '>' then
      match cs with
      | '=' :: rest => .ok ⟨.GreaterEqual, line⟩ :: lex_go f rest line
      | _ => .ok ⟨.Greater, line⟩ :: lex_go f cs line
    else if c = '(' then .ok ⟨.LParen, line⟩ :: lex_go f cs line
    else if c = ')' then .ok ⟨.RParen, line⟩ :: lex_go f cs line
    else if c = '\x7b' then .ok ⟨.LBrace, line⟩ :: lex_go f cs line
    else if c = '\x7d' then .ok ⟨.RBrace, line⟩ :: lex_go f cs line
    else if c = '[' then .ok ⟨.LBracket, line⟩ :: lex_go f cs line
    else if c = ']' then .ok ⟨.RBracket, line⟩ :: lex_go f cs line
    else if c = ',' then .ok ⟨.Comma, line⟩ :: lex_go f cs line
    else if c = ';' then .ok ⟨.Semicolon, line⟩ :: lex_go f cs line
    else if c = '+' then .ok ⟨.Plus, line⟩ :: lex_go f cs line
    else if c = '-' then .ok ⟨.Minus, line⟩ :: lex_go f cs line
    else if c = '*' then .ok ⟨.Star, line⟩ :: lex_go f cs line
    else if c = '/' then .ok ⟨.Slash, line⟩ :: lex_go f cs line
    else [.error "unexpected character"]

/-- Modelled from the spec: the tokenizer interface the parser consumes — a
token stream with line numbers terminated by an explicit EOF marker
(`crate::lexer` is not under src/). -/
def tokenize (s : String) : List Lexeme :=
  lex_go (s.toList.length + 1) s.toList 1 ++ [.ok ⟨.EOF, 1⟩]

/-- Parsing a source string: tokenize, then run Parser::parse; only the
result list is kept (the stream is exhausted at that point). -/
def parseStr (s : String) : Except PErr (List (Except String AST)) :=
  (parse (tokenize s)).1

/-- The result list with every AST replaced by its canonical rendering, for
claims about the Display contract. -/
def renderedParse (s : String) : Except PErr (List (Except String String)) :=
  (parseStr s).map (List.map (Except.map AST.render))

/-- Whether a parser result is an ordinary syntax error (`anyhow` error of
the source), as opposed to a success, a panic, or fuel exhaustion. -/
def is_syntax_err : Except PErr α → Bool
  | .error (.err _) => true
  | _ => false

/-- Whether a parser result is free of fuel exhaustion: the embedded
counterpart of "the source function returns". -/
def fuel_ok : Except PErr α → Bool
  | .error .fuelOut => false
  | _ => true

/-- Whether a parse_fun result, when it is a success, is an `Fn` node
carrying the given name (errors put no constraint). -/
def fn_result_name_is (r : Except PErr AST) (nm : Option String) : Bool :=
  match r with
  | .ok (.Fn name _ _) => name == nm
  | .ok _ => false
  | .error _ => true

/-- The rational five halves, in lowest terms (a non-integral number for the
rendering claims). -/
def ratFiveHalves : Rat := ⟨5, 2, by decide, by decide⟩

/-- C1: for the input "23 + (5 - 3 * 5) / 10;", parse returns exactly one
result, it is a success, and the canonical rendering of its AST is
"(+ 23.0 (/ (group (- 5.0 (* 3.0 5.0))) 10.0))": multiplication and
division bind tighter than addition and subtraction, and the parenthesized
group is preserved as a `group` node. -/
theorem C1_precedence_and_grouping :
    renderedParse "23 + (5 - 3 * 5) / 10;" =
      .ok [.ok "(+ 23.0 (/ (group (- 5.0 (* 3.0 5.0))) 10.0))"] := rfl

/-- C2 counterexample: the claim gives every call/index/postfix operator —
including reassignment — left binding power 13, but postfix_binding_power
maps `ReAssign` to 12. -/
theorem C2_counterexample_reassign_power :
    post_binding_power Op.ReAssign = some (12, ()) ∧
      post_binding_power Op.ReAssign ≠ some (13, ()) := by decide

/-- C2 amended: the binding-power tables are exactly as claimed except that
the reassignment postfix operator has left binding power 12 (call
application, index and len keep 13): and/or = (3,4), the six comparison
operators = (5,6), + and - = (7,8), * and / = (9,10), unary prefix right
binding power 11, and every infix operator has left binding power equal to
right binding power minus one, so all infix operators are left-associative
and none is right-associative. -/
theorem C2_amended_binding_power_tables :
    inf_binding_power .And = some (3, 4) ∧ inf_binding_power .Or = some (3, 4) ∧
    inf_binding_power .Less = some (5, 6) ∧ inf_binding_power .LessEqual = some (5, 6) ∧
    inf_binding_power .Greater = some (5, 6) ∧ inf_binding_power .GreaterEqual = some (5, 6) ∧
    inf_binding_power .AssignEqual = some (5, 6) ∧ inf_binding_power .BangEqual = some (5, 6) ∧
    inf_binding_power .Plus = some (7, 8) ∧ inf_binding_power .Minus = some (7, 8) ∧
    inf_binding_power .Star = some (9, 10) ∧ inf_binding_power .Slash = some (9, 10) ∧
    pre_binding_power .Bang = some ((), 11) ∧ pre_binding_power .Minus = some ((), 11) ∧
    pre_binding_power .Plus = some ((), 11) ∧
    post_binding_power .Fn = some (13, ()) ∧ post_binding_power .Index = some (13, ()) ∧
    post_binding_power .Len = some (13, ()) ∧ post_binding_power .ReAssign = some (12, ()) ∧
    (∀ op, ((inf_binding_power op).all fun p => p.1 + 1 == p.2) = true) := by
  refine ⟨rfl, rfl, rfl, rfl, rfl, rfl, rfl, rfl, rfl, rfl, rfl, rfl, rfl, rfl,
    rfl, rfl, rfl, rfl, rfl, ?_⟩
  intro op
  cases op <;> rfl

/-- C3 counterexample: on the source text `x = 10;`, an identifier
immediately followed by the assignment token, the parser yields the generic
operator node `Expr(ReAssign, [Ident x, Expr(Assing, [Number 10])])` — not
a node of a dedicated `Reassign` variant distinct from `Expr` (no such
variant exists in the AST enumeration of the source). -/
theorem C3_counterexample_reassign_is_generic_Expr :
    parseStr "x = 10;" =
      .ok [.ok (.Expr .ReAssign
        [.Typ (.Ident "x"), .Expr .Assing [.Typ (.Number 10)]])] := rfl

/-- C3 amended: an identifier immediately followed by the assignment token
is parsed by the `ReAssign` postfix case inside the generic operator loop
(not short-circuited before it) and yields the generic node
`Expr(ReAssign, [Ident, Expr(Assing, [rhs])])`; the AST variant set handed
to the evaluator has no dedicated `Reassign` variant. -/
theorem C3_amended_reassign_shape (fuel : Nat) (x raw : String) (q : Rat)
    (l1 l2 l3 l4 : Nat) :
    parse_expression (fuel + 6) 0
      [.ok ⟨.Ident x, l1⟩, .ok ⟨.Assign, l2⟩, .ok ⟨.Number raw q, l3⟩,
       .ok ⟨.Semicolon, l4⟩] =
      (.ok (.Expr .ReAssign [.Typ (.Ident x), .Expr .Assing [.Typ (.Number q)]]),
       []) := rfl

/-- C4 counterexample: after the malformed statement `let 5 ;` the
sub-parser stops at the semicolon, which cannot start a statement, so the
top-level loop breaks: the well-formed `print 1 ;` that follows is never
parsed and the result holds the error alone — parsing does not continue
with the following statements. -/
theorem C4_counterexample_no_resume_after_let5 :
    parseStr "let 5 ; print 1 ;" =
      .ok [.error "[line: 1] Error: Expected IDENTIFIER"] := rfl

/-- C4 amended: parsing "let ;" followed by a well-formed statement yields
one syntax-error result (never a panic) followed by the following
statement's success, because the failing let-parser consumes through the
semicolon; in general recovery resumes at the token where the failing
sub-parser stopped, which reaches the following statements only when the
malformed statement's tokens were consumed through its boundary — leftover
tokens that cannot start a statement end top-level parsing. -/
theorem C4_amended_let_semicolon_recovers :
    parseStr "let ; print 1;" =
      .ok [.error "[line: 1] Error: Expected IDENTIFIER",
           .ok (.Print (.Typ (.Number 1)))] := rfl

/-- Helper: a pbind chain whose continuation always satisfies
`fn_result_name_is` satisfies it as well (errors satisfy it trivially). -/
theorem fn_name_pbind {α : Type} (nm : Option String)
    (x : Except PErr α × List Lexeme)
    (f : α → List Lexeme → Except PErr AST × List Lexeme)
    (hf : ∀ a ls, fn_result_name_is (f a ls).1 nm = true) :
    fn_result_name_is (pbind x f).1 nm = true := by
  rcases x with ⟨r, ls⟩
  cases r with
  | ok a => simpa [pbind] using hf a ls
  | error e => simp [pbind, fn_result_name_is]

/-- Helper: collect_block returns an error whenever the statement list
contains one. -/
theorem collect_block_mem_error (rs : List (Except String AST)) (m : String)
    (h : Except.error m ∈ rs) : ∃ m', collect_block rs = .error m' := by
  induction rs with
  | nil => cases h
  | cons hd tl ih =>
    cases hd with
    | error e => exact ⟨e, rfl⟩
    | ok a =>
      rcases List.mem_cons.mp h with h1 | h2
      · exact absurd h1 (by simp)
      · rcases ih h2 with ⟨m', hm⟩
        exact ⟨m', by simp [collect_block, hm]⟩

/-- C5: parsing "let num = 1;" yields the node
`Let{ident:"num", value: Expr(Assing, [Number 1.0])}` (not a bare literal);
a `let` statement rejects a non-identifier after the keyword, the value
defaults to `Nil` when no `=` follows the identifier, and the terminating
semicolon is required. -/
theorem C5_let_statement :
    (parseStr "let num = 1;" =
      .ok [.ok (.Let "num" (.Expr .Assing [.Typ (.Number 1)]))]) ∧
    (∀ (fuel l1 l2 : Nat) (t : Token) (rest : List Lexeme), (∀ s, t ≠ .Ident s) →
      is_syntax_err
        (parse_let (fuel + 1) (.ok ⟨.Let, l1⟩ :: .ok ⟨t, l2⟩ :: rest)).1 = true) ∧
    (∀ (fuel : Nat) (nm : String) (l1 l2 l3 : Nat) (rest : List Lexeme),
      parse_let (fuel + 1)
        (.ok ⟨.Let, l1⟩ :: .ok ⟨.Ident nm, l2⟩ :: .ok ⟨.Semicolon, l3⟩ :: rest) =
        (.ok (.Let nm (.Typ .Nil)), rest)) ∧
    (∀ (fuel : Nat) (nm : String) (l1 l2 : Nat),
      is_syntax_err (parse_let (fuel + 1) [.ok ⟨.Let, l1⟩, .ok ⟨.Ident nm, l2⟩]).1 = true) := by
  refine ⟨rfl, ?_, fun _ _ _ _ _ _ => rfl, fun _ _ _ _ => rfl⟩
  intro fuel l1 l2 t rest h
  cases t <;> simp_all [parse_let, is_next_token, is_syntax_err]

/-- C5 witness: the general clauses instantiated — a `let` followed by a
semicolon instead of an identifier is rejected. -/
theorem C5_let_statement_witness :
    is_syntax_err (parse_let 1 [.ok ⟨.Let, 1⟩, .ok ⟨.Semicolon, 1⟩]).1 = true :=
  C5_let_statement.2.1 0 1 1 .Semicolon [] (fun _ h => Token.noConfusion h)

/-- C6: parsing "fn add(a, b) { return a + b; }" yields
`Fn{name: Some "add", params: ["a","b"],
body: [Return(Expr(Plus, [Ident a, Ident b]))]}`; a function whose `fn`
keyword is followed by an identifier carries that name, and one whose `fn`
is not followed by an identifier carries `name = None` — declarations and
anonymous literals share the `Fn` node shape. -/
theorem C6_fn_declaration :
    (parseStr "fn add(a, b) \x7b return a + b; \x7d" =
      .ok [.ok (.Fn (some "add") ["a", "b"]
        [.Return (.Expr .Plus [.Typ (.Ident "a"), .Typ (.Ident "b")])])]) ∧
    (∀ (fuel l l2 : Nat) (n : String) (rest : List Lexeme),
      fn_result_name_is
        (parse_fun (fuel + 1) (.ok ⟨.Fn, l⟩ :: .ok ⟨.Ident n, l2⟩ :: rest)).1
        (some n) = true) ∧
    (∀ (fuel l l2 : Nat) (t : Token) (rest : List Lexeme), (∀ s, t ≠ .Ident s) →
      fn_result_name_is
        (parse_fun (fuel + 1) (.ok ⟨.Fn, l⟩ :: .ok ⟨t, l2⟩ :: rest)).1
        none = true) := by
  refine ⟨rfl, ?_, ?_⟩
  · intro fuel l l2 n rest
    simp only [parse_fun, is_next_token, List.tail]
    apply fn_name_pbind; intro a1 ls1
    apply fn_name_pbind; intro a2 ls2
    apply fn_name_pbind; intro a3 ls3
    apply fn_name_pbind; intro a4 ls4
    apply fn_name_pbind; intro a5 ls5
    apply fn_name_pbind; intro a6 ls6
    simp [fn_result_name_is]
  · intro fuel l l2 t rest h
    cases t <;> simp_all only [parse_fun, is_next_token, List.tail] <;>
      first
        | (exact absurd rfl (h _))
        | (apply fn_name_pbind; intro a1 ls1
           apply fn_name_pbind; intro a2 ls2
           apply fn_name_pbind; intro a3 ls3
           apply fn_name_pbind; intro a4 ls4
           apply fn_name_pbind; intro a5 ls5
           apply fn_name_pbind; intro a6 ls6
           simp [fn_result_name_is])

/-- C6 witness: the anonymous clause instantiated — after `fn` a left
parenthesis (no identifier) gives `name = None`. -/
theorem C6_fn_declaration_witness :
    fn_result_name_is (parse_fun 1 [.ok ⟨.Fn, 1⟩, .ok ⟨.LParen, 1⟩]).1 none = true :=
  C6_fn_declaration.2.2 0 1 1 .LParen [] (fun _ h => Token.noConfusion h)

/-- C7: the call expression `add(1, 2)` renders as "(call (add 1.0 2.0))"
(inner `Call` node as callee followed by space-separated arguments in
parentheses, wrapped by a call-tagged `Expr`); a numeric literal with an
integral value renders with a trailing `.0` (2 renders as "2.0", and in
general the value followed by ".0"), a non-integral one with natural float
formatting (five halves renders as "2.5"). -/
theorem C7_call_and_number_rendering :
    (renderedParse "add(1, 2);" = .ok [.ok "(call (add 1.0 2.0))"]) ∧
    (Ty.render (.Number 2) = "2.0") ∧
    (∀ q : Rat, q.den = 1 → Ty.render (.Number q) = toString q.num ++ ".0") ∧
    (Ty.render (.Number ratFiveHalves) = "2.5") := by
  refine ⟨rfl, rfl, ?_, rfl⟩
  intro q h
  simp [Ty.render, renderNum, h]

/-- C7 witness: the integral clause instantiated at 2. -/
theorem C7_call_and_number_rendering_witness :
    Ty.render (.Number 2) = toString (2 : Rat).num ++ ".0" :=
  C7_call_and_number_rendering.2.2.1 2 (by decide)

/-- C8 counterexample: the two expression-start edge cases are handled by
different policies — at end of input parse_expression returns a `Nil`
literal (permissive), while an unrecognized leading token (here a right
parenthesis) yields a syntax error (strict). -/
theorem C8_counterexample_mixed_policy :
    (parse_expression 1 0 []).1 = .ok (.Typ .Nil) ∧
    (parse_expression 2 0 [.ok ⟨.RParen, 1⟩]).1 =
      .error (.err "[line 1] Error: Expected an EXPRESSION") := ⟨rfl, rfl⟩

/-- C8 amended: the expression parser applies two different policies to the
two expression-start edge cases: end of input where an expression is
expected yields a `Nil` literal node (permissive), while an unrecognized
leading token — a closing parenthesis, a semicolon, or the EOF marker —
yields a syntax error (strict). -/
theorem C8_amended_split_policy :
    (∀ fuel b, (parse_expression (fuel + 1) b []).1 = .ok (.Typ .Nil)) ∧
    (∀ fuel b l,
      (parse_expression (fuel + 2) b [.ok ⟨.RParen, l⟩]).1 =
        .error (.err ("[line " ++ toString l ++ "] Error: Expected an EXPRESSION")) ∧
      (parse_expression (fuel + 2) b [.ok ⟨.Semicolon, l⟩]).1 =
        .error (.err ("[line " ++ toString l ++ "] Error: Expected an EXPRESSION")) ∧
      (parse_expression (fuel + 2) b [.ok ⟨.EOF, l⟩]).1 =
        .error (.err ("[line " ++ toString l ++ "] Error: Expected an EXPRESSION"))) :=
  ⟨fun _ _ => rfl, fun _ _ _ => ⟨rfl, rfl, rfl⟩⟩

/-- C10: inside a braced block the first statement that fails to parse
aborts the whole block — the enclosing `fn` or `if` construct becomes a
single error result and the well-formed statements inside are discarded —
while at the top level the same malformed statement is collected and the
following statements are still parsed. -/
theorem C10_block_aborts_on_first_error :
    (parseStr "fn f() \x7b let ; let x = 1; \x7d" =
      .ok [.error "[line: 1] Error: Expected IDENTIFIER"]) ∧
    (parseStr "if 1 \x7b let ; \x7d else \x7b \x7d" =
      .ok [.error "[line: 1] Error: Expected IDENTIFIER"]) ∧
    (parseStr "let ; let x = 1;" =
      .ok [.error "[line: 1] Error: Expected IDENTIFIER",
           .ok (.Let "x" (.Expr .Assing [.Typ (.Number 1)]))]) ∧
    (∀ (fuel : Nat) (ls : List Lexeme) (rs : List (Except String AST))
        (ls' : List Lexeme) (m : String),
      parse_statement fuel ls = (.ok rs, ls') → Except.error m ∈ rs →
      is_syntax_err (parse_block (fuel + 1) ls).1 = true) := by
  refine ⟨rfl, rfl, rfl, ?_⟩
  intro fuel ls rs ls' m h1 h2
  obtain ⟨m', hm⟩ := collect_block_mem_error rs m h2
  simp [parse_block, h1, pbind, hm, is_syntax_err]

/-- C10 witness: the abort clause instantiated — a block whose statement
list is the single malformed `let ;` makes parse_block fail. -/
theorem C10_block_aborts_on_first_error_witness :
    is_syntax_err (parse_block 6 [.ok ⟨.Let, 1⟩, .ok ⟨.Semicolon, 1⟩]).1 = true :=
  C10_block_aborts_on_first_error.2.2.2 5
    [.ok ⟨.Let, 1⟩, .ok ⟨.Semicolon, 1⟩]
    [.error "[line: 1] Error: Expected IDENTIFIER"] [] "[line: 1] Error: Expected IDENTIFIER"
    rfl (by simp)

/-- Helper: an if-then-else of parser results is bounded when both sides
are. -/
theorem ite_le_mono {α : Type} {n : Nat} {c : Prop} [Decidable c]
    (x y : Except PErr α × List Lexeme)
    (hx : x.2.length ≤ n) (hy : y.2.length ≤ n) :
    (if c then x else y).2.length ≤ n := by
  split
  · exact hx
  · exact hy
/-- Helper: dropping the head never lengthens a stream. -/
theorem tail_length_le (ls : List Lexeme) : ls.tail.length ≤ ls.length := by
  cases ls <;> simp

/-- Helper: expect_peek never lengthens the stream. -/
theorem expect_peek_mono (t : Token) (ls : List Lexeme) :
    (expect_peek t ls).2.length ≤ ls.length := by
  cases ls with
  | nil => simp [expect_peek]
  | cons hd tl =>
    cases hd with
    | error e => simp [expect_peek]
    | ok next => by_cases h : next.token == t <;> simp [expect_peek, h]

/-- Helper: a pbind chain is bounded by `n` when its first step is and its
continuation preserves the bound. -/
theorem pbind_mono {α β : Type} {n : Nat} (x : Except PErr α × List Lexeme)
    (f : α → List Lexeme → Except PErr β × List Lexeme)
    (hx : x.2.length ≤ n)
    (hf : ∀ a ls', ls'.length ≤ n → (f a ls').2.length ≤ n) :
    (pbind x f).2.length ≤ n := by
  rcases x with ⟨r, ls⟩
  cases r with
  | error e => exact hx
  | ok a => exact hf a ls hx

set_option maxHeartbeats 4000000 in
/-- Monotonicity of the whole parser: no function ever returns a longer
stream than it was given (the token source is only consumed). -/
theorem mono_all (fuel : Nat) :
    (∀ b ls, (parse_expression fuel b ls).2.length ≤ ls.length) ∧
    (∀ t line rest, (nud_step fuel t line rest).2.length ≤ rest.length) ∧
    (∀ b a ls, (led_loop fuel b a ls).2.length ≤ ls.length) ∧
    (∀ ls, (parse_statement fuel ls).2.length ≤ ls.length) ∧
    (∀ d ls, (run_dispatch fuel d ls).2.length ≤ ls.length) ∧
    (∀ ls, (parse_let fuel ls).2.length ≤ ls.length) ∧
    (∀ ls, (parse_return fuel ls).2.length ≤ ls.length) ∧
    (∀ ls, (parse_if fuel ls).2.length ≤ ls.length) ∧
    (∀ ls, (parse_block fuel ls).2.length ≤ ls.length) ∧
    (∀ ls, (parse_fun fuel ls).2.length ≤ ls.length) ∧
    (∀ ls, (parse_params fuel ls).2.length ≤ ls.length) ∧
    (∀ acc ls, (params_loop fuel acc ls).2.length ≤ ls.length) ∧
    (∀ ls, (parse_args fuel ls).2.length ≤ ls.length) ∧
    (∀ acc ls, (args_loop fuel acc ls).2.length ≤ ls.length) ∧
    (∀ ls, (parse_print fuel ls).2.length ≤ ls.length) ∧
    (∀ ls, (parse_expression_statements fuel ls).2.length ≤ ls.length) ∧
    (∀ ls, (parse_array fuel ls).2.length ≤ ls.length) ∧
    (∀ acc ls, (array_loop fuel acc ls).2.length ≤ ls.length) := by
  induction fuel with
  | zero =>
    refine ⟨?_, ?_, ?_, ?_, ?_, ?_, ?_, ?_, ?_, ?_, ?_, ?_, ?_, ?_, ?_, ?_, ?_, ?_⟩ <;>
      intros <;>
      simp [parse_expression, nud_step, led_loop, parse_statement, run_dispatch,
        parse_let, parse_return, parse_if, parse_block, parse_fun, parse_params,
        params_loop, parse_args, args_loop, parse_print,
        parse_expression_statements, parse_array, array_loop]
  | succ fuel ih =>
    obtain ⟨ih_expr, ih_nud, ih_led, ih_stmt, ih_run, ih_let, ih_ret, ih_if, ih_blk,
      ih_fun, ih_params, ih_ploop, ih_args, ih_aloop, ih_print, ih_es, ih_arr,
      ih_arrLoop⟩ := ih
    refine ⟨?_, ?_, ?_, ?_, ?_, ?_, ?_, ?_, ?_, ?_, ?_, ?_, ?_, ?_, ?_, ?_, ?_, ?_⟩
    · -- parse_expression
      intro b ls
      rcases ls with _ | ⟨e | ⟨tok, line⟩, tl⟩
      · exact le_refl _
      · exact Nat.le_succ _
      · refine le_trans ?_ (Nat.le_succ tl.length)
        cases tok <;>
          first
          | exact pbind_mono _ _ (expect_peek_mono _ _) (fun _ ls1 h1 =>
              pbind_mono _ _ (le_trans (ih_expr 0 ls1) h1) (fun _ ls2 h2 =>
              pbind_mono _ _ (le_trans (expect_peek_mono _ _) h2) (fun _ ls3 h3 =>
              pbind_mono _ _ (le_trans (ih_expr 0 ls3) h3) (fun _ ls4 h4 =>
              pbind_mono _ _ (le_trans (expect_peek_mono _ _) h4) (fun _ ls5 h5 =>
              pbind_mono _ _ (le_trans (expect_peek_mono _ _) h5) (fun _ ls6 h6 => h6))))))
          | exact pbind_mono _ _ (ih_nud _ _ _) (fun a ls1 h1 =>
              le_trans (ih_led _ _ _) h1)
    · -- nud_step
      intro t line rest
      cases t <;>
        first
        | exact le_refl _
        | exact ih_fun _
        | exact ih_if _
        | exact ih_arr _
        | exact pbind_mono _ _ (ih_expr _ _) (fun _ ls1 h1 => h1)
        | exact pbind_mono _ _ (ih_expr 0 _) (fun _ ls1 h1 =>
            pbind_mono _ _ (le_trans (expect_peek_mono _ _) h1) (fun _ ls2 h2 => h2))
        | exact pbind_mono _ _ (expect_peek_mono _ _) (fun _ ls1 h1 =>
            pbind_mono _ _ (le_trans (ih_expr 0 ls1) h1) (fun _ ls2 h2 =>
            pbind_mono _ _ (le_trans (expect_peek_mono _ _) h2) (fun _ ls3 h3 => h3)))
    · -- led_loop
      intro b a ls
      rcases ls with _ | ⟨e | ⟨tok, line⟩, tl⟩
      · exact le_refl _
      · exact le_refl _
      · cases tok <;>
          first
          | exact le_refl _
          | -- infix operators
            exact ite_le_mono _ _ (le_refl _) (pbind_mono _ _
              (le_trans (ih_expr _ tl) (Nat.le_succ _)) (fun _ ls1 h1 =>
              le_trans (ih_led _ _ _) h1))
          | -- call application
            exact ite_le_mono _ _ (le_refl _) (pbind_mono _ _ (expect_peek_mono _ _)
              (fun _ ls1 h1 => pbind_mono _ _ (le_trans (ih_args ls1) h1) (fun _ ls2 h2 =>
                pbind_mono _ _ (le_trans (expect_peek_mono _ _) h2) (fun _ ls3 h3 =>
                le_trans (ih_led _ _ _) h3))))
          | -- reassignment
            exact ite_le_mono _ _ (le_refl _) (pbind_mono _ _ (ih_expr 0 _)
              (fun _ ls1 h1 => pbind_mono _ _ (le_trans (expect_peek_mono _ _) h1)
                (fun _ ls2 h2 => le_trans (ih_led _ _ _) h2)))
          | -- indexing
            exact ite_le_mono _ _ (le_refl _) (pbind_mono _ _ (expect_peek_mono _ _)
              (fun _ ls1 h1 => pbind_mono _ _ (le_trans (ih_expr 0 ls1) h1) (fun _ ls2 h2 =>
                pbind_mono _ _ (le_trans (expect_peek_mono _ _) h2) (fun _ ls3 h3 =>
                le_trans (ih_led _ _ _) h3))))
    · -- parse_statement
      intro ls
      rcases ls with _ | ⟨e | lsd, tl⟩
      · exact le_refl _
      · exact pbind_mono _ _ (le_trans (ih_stmt tl) (Nat.le_succ _)) (fun _ ls1 h1 => h1)
      · simp only [parse_statement]
        split
        · exact le_refl _
        · rename_i d hd
          rcases hrd : run_dispatch fuel d (.ok lsd :: tl) with ⟨rr, ls1⟩
          have hl : ls1.length ≤ (Except.ok lsd :: tl : List Lexeme).length := by
            have h := ih_run d (.ok lsd :: tl)
            rw [hrd] at h
            exact h
          match rr with
          | .ok ast =>
            exact pbind_mono _ _ (le_trans (ih_stmt ls1) hl) (fun _ ls2 h2 => h2)
          | .error (.err m) =>
            exact pbind_mono _ _ (le_trans (ih_stmt ls1) hl) (fun _ ls2 h2 => h2)
          | .error (.panicked m) => exact hl
          | .error .fuelOut => exact hl
    · -- run_dispatch
      intro d ls
      cases d <;>
        first
        | exact ih_fun _ | exact ih_ret _ | exact ih_if _ | exact ih_print _
        | exact ih_let _ | exact ih_es _
    · -- parse_let
      intro ls
      simp only [parse_let]
      have hlu : (if is_next_token .Let ls then ls.tail else ls).length ≤ ls.length := by
        split
        · exact tail_length_le ls
        · exact le_refl _
      generalize hu : (if is_next_token .Let ls then ls.tail else ls) = u at hlu ⊢
      rcases u with _ | ⟨e | ⟨tok, line⟩, tl⟩
      · exact Nat.zero_le _
      · exact le_trans (Nat.le_succ _) hlu
      · have htl : tl.length ≤ ls.length := le_trans (Nat.le_succ _) hlu
        cases tok <;>
          first
          | exact htl
          | exact pbind_mono _ _
              (by
                rcases tl with _ | ⟨e2 | ⟨tok2, line2⟩, tl2⟩
                · exact htl
                · exact htl
                · cases tok2 <;>
                    first
                    | exact htl
                    | exact le_trans (ih_expr 0 _) htl)
              (fun _ ls2 h2 => pbind_mono _ _ (le_trans (expect_peek_mono _ _) h2)
                (fun _ ls3 h3 => h3))
    · -- parse_return
      intro ls
      exact pbind_mono _ _ (le_trans (ih_expr 0 ls.tail) (tail_length_le ls))
        (fun _ ls1 h1 => pbind_mono _ _ (le_trans (expect_peek_mono _ _) h1)
          (fun _ ls2 h2 => h2))
    · -- parse_if
      intro ls
      simp only [parse_if]
      have hlu : (if is_next_token .If ls then ls.tail else ls).length ≤ ls.length := by
        split
        · exact tail_length_le ls
        · exact le_refl _
      generalize hu : (if is_next_token .If ls then ls.tail else ls) = u at hlu ⊢
      refine pbind_mono _ _ (le_trans (ih_expr 0 u) hlu) (fun _ ls1 h1 =>
        pbind_mono _ _ (le_trans (expect_peek_mono _ _) h1) (fun _ ls2 h2 =>
        pbind_mono _ _ (le_trans (ih_blk ls2) h2) (fun _ ls3 h3 =>
        pbind_mono _ _ (le_trans (expect_peek_mono _ _) h3) (fun _ ls4 h4 => ?_))))
      rcases ls4 with _ | ⟨e | ⟨tok4, l4⟩, tl4⟩
      · exact h4
      · exact h4
      · have htl4 : tl4.length ≤ ls.length := le_trans (Nat.le_succ _) h4
        cases tok4 <;>
          first
          | exact h4
          | exact pbind_mono _ _ (le_trans (expect_peek_mono _ _) htl4) (fun _ ls5 h5 =>
              pbind_mono _ _ (le_trans (ih_blk ls5) h5) (fun _ ls6 h6 =>
              pbind_mono _ _ (le_trans (expect_peek_mono _ _) h6) (fun _ ls7 h7 => h7)))
    · -- parse_block
      intro ls
      refine pbind_mono _ _ (ih_stmt ls) (fun results ls1 h1 => ?_)
      split <;> exact h1
    · -- parse_fun
      intro ls
      simp only [parse_fun]
      have hlu : (if is_next_token .Fn ls then ls.tail else ls).length ≤ ls.length := by
        split
        · exact tail_length_le ls
        · exact le_refl _
      generalize hu : (if is_next_token .Fn ls then ls.tail else ls) = u at hlu ⊢
      have chain : ∀ (s : List Lexeme), s.length ≤ ls.length →
          ∀ (nm : Option String),
          (pbind (expect_peek .LParen s) fun _ ls1 =>
            pbind (parse_params fuel ls1) fun params ls2 =>
            pbind (expect_peek .RParen ls2) fun _ ls3 =>
            pbind (expect_peek .LBrace ls3) fun _ ls4 =>
            pbind (parse_block fuel ls4) fun body ls5 =>
            pbind (expect_peek .RBrace ls5) fun _ ls6 =>
            ((Except.ok (AST.Fn nm params body) : Except PErr AST), ls6)).2.length ≤ ls.length := by
        intro s hs nm
        exact pbind_mono _ _ (le_trans (expect_peek_mono _ _) hs) (fun _ ls1 h1 =>
          pbind_mono _ _ (le_trans (ih_params _) h1) (fun _ ls2 h2 =>
          pbind_mono _ _ (le_trans (expect_peek_mono _ _) h2) (fun _ ls3 h3 =>
          pbind_mono _ _ (le_trans (expect_peek_mono _ _) h3) (fun _ ls4 h4 =>
          pbind_mono _ _ (le_trans (ih_blk _) h4) (fun _ ls5 h5 =>
          pbind_mono _ _ (le_trans (expect_peek_mono _ _) h5) (fun _ ls6 h6 => h6))))))
      rcases u with _ | ⟨e | ⟨tok, line⟩, tl⟩
      · exact chain _ hlu _
      · exact chain _ hlu _
      · cases tok <;>
          first
          | exact chain _ (le_trans (Nat.le_succ _) hlu) _
          | exact chain _ hlu _
    · -- parse_params
      intro ls
      simp only [parse_params]
      split
      · exact ih_ploop _ _
      · rcases ls with _ | ⟨e | ⟨tok, line⟩, tl⟩
        · exact le_refl _
        · exact Nat.le_succ _
        · cases tok <;>
            first
            | exact Nat.le_succ _
            | exact le_trans (ih_ploop _ _) (Nat.le_succ _)
    · -- params_loop
      intro acc ls
      simp only [params_loop]
      split
      · rename_i hc
        rcases ls with _ | ⟨e | ⟨tok, line⟩, tl⟩
        · simp [is_next_token] at hc
        · simp [is_next_token] at hc
        · rcases tl with _ | ⟨e2 | ⟨tok2, line2⟩, tl2⟩
          · exact Nat.zero_le _
          · exact le_trans (Nat.le_succ _) (Nat.le_succ _)
          · cases tok2 <;>
              first
              | exact le_trans (Nat.le_succ _) (Nat.le_succ _)
              | exact le_trans (ih_ploop _ _) (le_trans (Nat.le_succ _) (Nat.le_succ _))
      · exact le_refl _
    · -- parse_args
      intro ls
      simp only [parse_args]
      split
      · exact ih_aloop _ _
      · exact pbind_mono _ _ (ih_expr 0 ls) (fun _ ls1 h1 =>
          le_trans (ih_aloop _ _) h1)
    · -- args_loop
      intro acc ls
      simp only [args_loop]
      split
      · exact pbind_mono _ _ (le_trans (ih_expr 0 ls.tail) (tail_length_le ls))
          (fun _ ls1 h1 => le_trans (ih_aloop _ _) h1)
      · exact le_refl _
    · -- parse_print
      intro ls
      rcases ls with _ | ⟨hd, tl⟩
      · exact le_refl _
      · rcases tl with _ | ⟨e2 | ⟨tok2, l2⟩, tl2⟩
        · exact Nat.zero_le _
        · exact Nat.le_succ _
        · exact pbind_mono _ _ (le_trans (ih_expr 0 _) (Nat.le_succ _))
            (fun _ ls2 h2 => pbind_mono _ _ (le_trans (expect_peek_mono _ _) h2)
              (fun _ ls3 h3 => h3))
    · -- parse_expression_statements
      intro ls
      refine pbind_mono _ _ (ih_expr 0 ls) (fun _ ls1 h1 => ?_)
      split
      · exact le_trans (tail_length_le _) h1
      · exact h1
    · -- parse_array
      intro ls
      exact ih_arrLoop [] ls
    · -- array_loop
      intro acc ls
      simp only [array_loop]
      split
      · exact tail_length_le ls
      · refine pbind_mono _ _ (ih_expr 0 ls) (fun v ls1 h1 => ?_)
        rcases ls1 with _ | ⟨e2 | ⟨tok2, l2⟩, tl2⟩
        · exact h1
        · exact h1
        · cases tok2 <;>
            first
            | exact h1
            | exact le_trans (ih_arrLoop _ _) h1
            | exact le_trans (ih_arrLoop _ _) (le_trans (Nat.le_succ _) h1)

/-- Helper: a successful expect_peek consumed exactly the peeked token. -/
theorem expect_peek_ok_len (t : Token) (ls ls' : List Lexeme) (u : Unit)
    (h : expect_peek t ls = (.ok u, ls')) : ls'.length < ls.length := by
  rcases ls with _ | ⟨e | next, tl⟩
  · simp [expect_peek] at h
  · simp [expect_peek] at h
  · by_cases hb : next.token == t
    · simp only [expect_peek, hb, if_pos] at h
      obtain ⟨-, rfl⟩ := Prod.mk.injEq .. ▸ h
      simp
    · simp [expect_peek, hb] at h

set_option maxHeartbeats 2000000 in
/-- Helper: parse_expression on a non-empty stream always consumes its head
(for positive fuel). -/
theorem strict_expr (fuel b : Nat) (x : Lexeme) (rest : List Lexeme) :
    (parse_expression (fuel + 1) b (x :: rest)).2.length ≤ rest.length := by
  rcases x with e | ⟨tok, line⟩
  · exact le_refl _
  · cases tok <;>
      first
      | exact pbind_mono _ _ (expect_peek_mono _ _) (fun _ ls1 h1 =>
          pbind_mono _ _ (le_trans ((mono_all fuel).1 0 ls1) h1) (fun _ ls2 h2 =>
          pbind_mono _ _ (le_trans (expect_peek_mono _ _) h2) (fun _ ls3 h3 =>
          pbind_mono _ _ (le_trans ((mono_all fuel).1 0 ls3) h3) (fun _ ls4 h4 =>
          pbind_mono _ _ (le_trans (expect_peek_mono _ _) h4) (fun _ ls5 h5 =>
          pbind_mono _ _ (le_trans (expect_peek_mono _ _) h5) (fun _ ls6 h6 => h6))))))
      | exact pbind_mono _ _ ((mono_all fuel).2.1 _ _ _) (fun a ls1 h1 =>
          le_trans ((mono_all fuel).2.2.1 _ _ _) h1)

set_option maxHeartbeats 2000000 in
/-- Helper: parse_let headed by the `let` keyword consumes it. -/
theorem strict_let (fuel l : Nat) (restl : List Lexeme) :
    (parse_let (fuel + 1) (.ok ⟨.Let, l⟩ :: restl)).2.length ≤ restl.length := by
  rcases restl with _ | ⟨e | ⟨tok, line⟩, tl⟩
  · exact Nat.zero_le _
  · exact Nat.le_succ _
  · cases tok <;>
      first
      | exact Nat.le_succ _
      | exact pbind_mono _ _
          (by
            rcases tl with _ | ⟨e2 | ⟨tok2, line2⟩, tl2⟩
            · exact Nat.le_succ _
            · exact Nat.le_succ _
            · cases tok2 <;>
                first
                | exact Nat.le_succ _
                | exact le_trans ((mono_all fuel).1 0 _) (Nat.le_succ _))
          (fun _ ls2 h2 => pbind_mono _ _ (le_trans (expect_peek_mono _ _) h2)
            (fun _ ls3 h3 => h3))

set_option maxHeartbeats 2000000 in
/-- Helper: parse_fun headed by the `fn` keyword consumes it. -/
theorem strict_fun (fuel l : Nat) (restl : List Lexeme) :
    (parse_fun (fuel + 1) (.ok ⟨.Fn, l⟩ :: restl)).2.length ≤ restl.length := by
  have chain : ∀ (s : List Lexeme), s.length ≤ restl.length →
      ∀ (nm : Option String),
      (pbind (expect_peek .LParen s) fun _ ls1 =>
        pbind (parse_params fuel ls1) fun params ls2 =>
        pbind (expect_peek .RParen ls2) fun _ ls3 =>
        pbind (expect_peek .LBrace ls3) fun _ ls4 =>
        pbind (parse_block fuel ls4) fun body ls5 =>
        pbind (expect_peek .RBrace ls5) fun _ ls6 =>
        ((Except.ok (AST.Fn nm params body) : Except PErr AST), ls6)).2.length ≤
        restl.length := by
    intro s hs nm
    exact pbind_mono _ _ (le_trans (expect_peek_mono _ _) hs) (fun _ ls1 h1 =>
      pbind_mono _ _ (le_trans ((mono_all fuel).2.2.2.2.2.2.2.2.2.2.1 _) h1) (fun _ ls2 h2 =>
      pbind_mono _ _ (le_trans (expect_peek_mono _ _) h2) (fun _ ls3 h3 =>
      pbind_mono _ _ (le_trans (expect_peek_mono _ _) h3) (fun _ ls4 h4 =>
      pbind_mono _ _ (le_trans ((mono_all fuel).2.2.2.2.2.2.2.2.1 _) h4) (fun _ ls5 h5 =>
      pbind_mono _ _ (le_trans (expect_peek_mono _ _) h5) (fun _ ls6 h6 => h6))))))
  rcases restl with _ | ⟨e | ⟨tok, line⟩, tl⟩
  · exact chain [] (le_refl _) none
  · exact chain (.error e :: tl) (le_refl _) none
  · cases tok <;>
      (apply chain <;> first | exact Nat.le_succ _ | exact le_refl _)

set_option maxHeartbeats 2000000 in
/-- Helper: parse_if headed by the `if` keyword consumes it. -/
theorem strict_if (fuel l : Nat) (restl : List Lexeme) :
    (parse_if (fuel + 1) (.ok ⟨.If, l⟩ :: restl)).2.length ≤ restl.length := by
  refine pbind_mono _ _ (le_trans ((mono_all fuel).1 0 restl) (le_refl _)) (fun _ ls1 h1 =>
    pbind_mono _ _ (le_trans (expect_peek_mono _ _) h1) (fun _ ls2 h2 =>
    pbind_mono _ _ (le_trans ((mono_all fuel).2.2.2.2.2.2.2.2.1 ls2) h2) (fun _ ls3 h3 =>
    pbind_mono _ _ (le_trans (expect_peek_mono _ _) h3) (fun _ ls4 h4 => ?_))))
  rcases ls4 with _ | ⟨e | ⟨tok4, l4⟩, tl4⟩
  · exact h4
  · exact h4
  · have htl4 : tl4.length ≤ restl.length := le_trans (Nat.le_succ _) h4
    cases tok4 <;>
      first
      | exact h4
      | exact pbind_mono _ _ (le_trans (expect_peek_mono _ _) htl4) (fun _ ls5 h5 =>
          pbind_mono _ _ (le_trans ((mono_all fuel).2.2.2.2.2.2.2.2.1 ls5) h5) (fun _ ls6 h6 =>
          pbind_mono _ _ (le_trans (expect_peek_mono _ _) h6) (fun _ ls7 h7 => h7)))

set_option maxHeartbeats 2000000 in
/-- Helper: parse_return consumes the keyword item unconditionally. -/
theorem strict_return (fuel : Nat) (x : Lexeme) (restl : List Lexeme) :
    (parse_return (fuel + 1) (x :: restl)).2.length ≤ restl.length :=
  pbind_mono _ _ (le_trans ((mono_all fuel).1 0 restl) (le_refl _))
    (fun _ ls1 h1 => pbind_mono _ _ (le_trans (expect_peek_mono _ _) h1)
      (fun _ ls2 h2 => h2))

set_option maxHeartbeats 2000000 in
/-- Helper: parse_print consumes the keyword item unconditionally. -/
theorem strict_print (fuel : Nat) (x : Lexeme) (restl : List Lexeme) :
    (parse_print (fuel + 1) (x :: restl)).2.length ≤ restl.length := by
  rcases restl with _ | ⟨e2 | ⟨tok2, l2⟩, tl2⟩
  · exact le_refl _
  · exact le_refl _
  · exact pbind_mono _ _ ((mono_all fuel).1 0 _)
      (fun _ ls2 h2 => pbind_mono _ _ (le_trans (expect_peek_mono _ _) h2)
        (fun _ ls3 h3 => h3))

set_option maxHeartbeats 2000000 in
/-- Helper: an expression statement on a non-empty stream consumes its
head. -/
theorem strict_es (fuel : Nat) (x : Lexeme) (restl : List Lexeme) :
    (parse_expression_statements (fuel + 1) (x :: restl)).2.length ≤ restl.length := by
  cases fuel with
  | zero => exact Nat.zero_le _
  | succ f =>
    refine pbind_mono _ _ (strict_expr f 0 x restl) (fun _ ls1 h1 => ?_)
    split
    · exact le_trans (tail_length_le _) h1
    · exact h1

set_option maxHeartbeats 2000000 in
/-- Helper: the sub-parser selected by a dispatching token consumes at
least that token. -/
theorem strict_run (fuel : Nat) (d : Dispatch) (tk : Token) (l : Nat)
    (restl : List Lexeme) (h : stmt_dispatch tk = some d) :
    (run_dispatch (fuel + 2) d (.ok ⟨tk, l⟩ :: restl)).2.length ≤ restl.length := by
  cases tk <;> simp [stmt_dispatch] at h <;> subst h <;>
    first
    | exact strict_fun _ _ _
    | exact strict_return _ _ _
    | exact strict_if _ _ _
    | exact strict_print _ _ _
    | exact strict_let _ _ _
    | exact strict_es _ _ _

/-- Helper: projection of mono_all for parse_expression. -/
theorem mono_expr (fuel b : Nat) (ls : List Lexeme) :
    (parse_expression fuel b ls).2.length ≤ ls.length := (mono_all fuel).1 b ls

/-- Helper: projection of mono_all for nud_step. -/
theorem mono_nud (fuel : Nat) (t : Token) (line : Nat) (rest : List Lexeme) :
    (nud_step fuel t line rest).2.length ≤ rest.length := (mono_all fuel).2.1 t line rest

/-- Helper: projection of mono_all for led_loop. -/
theorem mono_led (fuel b : Nat) (a : AST) (ls : List Lexeme) :
    (led_loop fuel b a ls).2.length ≤ ls.length := (mono_all fuel).2.2.1 b a ls

/-- Helper: projection of mono_all for parse_statement. -/
theorem mono_stmt (fuel : Nat) (ls : List Lexeme) :
    (parse_statement fuel ls).2.length ≤ ls.length := (mono_all fuel).2.2.2.1 ls

/-- Helper: projection of mono_all for run_dispatch. -/
theorem mono_run (fuel : Nat) (d : Dispatch) (ls : List Lexeme) :
    (run_dispatch fuel d ls).2.length ≤ ls.length := (mono_all fuel).2.2.2.2.1 d ls

/-- Helper: projection of mono_all for parse_block. -/
theorem mono_blk (fuel : Nat) (ls : List Lexeme) :
    (parse_block fuel ls).2.length ≤ ls.length := (mono_all fuel).2.2.2.2.2.2.2.2.1 ls

/-- Helper: projection of mono_all for parse_params. -/
theorem mono_params (fuel : Nat) (ls : List Lexeme) :
    (parse_params fuel ls).2.length ≤ ls.length := (mono_all fuel).2.2.2.2.2.2.2.2.2.2.1 ls

/-- Helper: projection of mono_all for parse_args. -/
theorem mono_args (fuel : Nat) (ls : List Lexeme) :
    (parse_args fuel ls).2.length ≤ ls.length :=
  (mono_all fuel).2.2.2.2.2.2.2.2.2.2.2.2.1 ls

/-- Helper: projection of mono_all for args_loop. -/
theorem mono_aloop (fuel : Nat) (acc : List AST) (ls : List Lexeme) :
    (args_loop fuel acc ls).2.length ≤ ls.length :=
  (mono_all fuel).2.2.2.2.2.2.2.2.2.2.2.2.2.1 acc ls

/-- Helper: a pbind result never exhausts fuel when its first step does not
and its continuation, run from the first step's success state, does not. -/
theorem pbind_fuel_ok {α β : Type} (x : Except PErr α × List Lexeme)
    (f : α → List Lexeme → Except PErr β × List Lexeme)
    (hx : fuel_ok x.1 = true)
    (hf : ∀ a ls', x = (.ok a, ls') → fuel_ok (f a ls').1 = true) :
    fuel_ok (pbind x f).1 = true := by
  rcases x with ⟨r, s⟩
  cases r with
  | error e => simp only [pbind]; cases e <;> simp_all [fuel_ok]
  | ok a => simp only [pbind]; exact hf a s rfl

/-- Helper: expect_peek never exhausts fuel. -/
theorem expect_peek_fuel_ok (t : Token) (ls : List Lexeme) :
    fuel_ok (expect_peek t ls).1 = true := by
  rcases ls with _ | ⟨e | next, tl⟩
  · rfl
  · rfl
  · by_cases hb : next.token == t <;> simp [expect_peek, hb, fuel_ok]

/-- Helper: an if-then-else of parser results never exhausts fuel when
neither side does. -/
theorem ite_fuel_ok {α : Type} {c : Prop} [Decidable c]
    (x y : Except PErr α × List Lexeme)
    (hx : fuel_ok x.1 = true) (hy : fuel_ok y.1 = true) :
    fuel_ok (if c then x else y).1 = true := by
  split
  · exact hx
  · exact hy

/-- Helper: carries a stream bound through an equation on a parser result. -/
theorem snd_len_le {α : Type} {r : Except PErr α} {ls' s : List Lexeme}
    {p : Except PErr α × List Lexeme}
    (heq : p = (r, ls')) (hm : p.2.length ≤ s.length) : ls'.length ≤ s.length := by
  rw [heq] at hm
  exact hm

set_option maxHeartbeats 10000000 in
/-- Fuel sufficiency for the whole parser: with fuel at least five times the
stream length plus a per-function constant, no parser function ever returns
the fuel-exhaustion marker — the embedded counterpart of termination of the
source on every bounded token stream. -/
theorem suff_all (fuel : Nat) :
    (∀ b ls, 5 * ls.length + 1 ≤ fuel → fuel_ok (parse_expression fuel b ls).1 = true) ∧
    (∀ t line rest, 5 * rest.length + 4 ≤ fuel → fuel_ok (nud_step fuel t line rest).1 = true) ∧
    (∀ b a ls, 5 * ls.length + 2 ≤ fuel → fuel_ok (led_loop fuel b a ls).1 = true) ∧
    (∀ ls, 5 * ls.length + 4 ≤ fuel → fuel_ok (parse_statement fuel ls).1 = true) ∧
    (∀ d ls, 5 * ls.length + 3 ≤ fuel → fuel_ok (run_dispatch fuel d ls).1 = true) ∧
    (∀ ls, 5 * ls.length + 1 ≤ fuel → fuel_ok (parse_let fuel ls).1 = true) ∧
    (∀ ls, 5 * ls.length + 2 ≤ fuel → fuel_ok (parse_return fuel ls).1 = true) ∧
    (∀ ls, 5 * ls.length + 2 ≤ fuel → fuel_ok (parse_if fuel ls).1 = true) ∧
    (∀ ls, 5 * ls.length + 5 ≤ fuel → fuel_ok (parse_block fuel ls).1 = true) ∧
    (∀ ls, 5 * ls.length + 1 ≤ fuel → fuel_ok (parse_fun fuel ls).1 = true) ∧
    (∀ ls, 5 * ls.length + 2 ≤ fuel → fuel_ok (parse_params fuel ls).1 = true) ∧
    (∀ acc ls, 5 * ls.length + 1 ≤ fuel → fuel_ok (params_loop fuel acc ls).1 = true) ∧
    (∀ ls, 5 * ls.length + 2 ≤ fuel → fuel_ok (parse_args fuel ls).1 = true) ∧
    (∀ acc ls, 5 * ls.length + 1 ≤ fuel → fuel_ok (args_loop fuel acc ls).1 = true) ∧
    (∀ ls, 5 * ls.length + 1 ≤ fuel → fuel_ok (parse_print fuel ls).1 = true) ∧
    (∀ ls, 5 * ls.length + 2 ≤ fuel → fuel_ok (parse_expression_statements fuel ls).1 = true) ∧
    (∀ ls, 5 * ls.length + 3 ≤ fuel → fuel_ok (parse_array fuel ls).1 = true) ∧
    (∀ acc ls, 5 * ls.length + 2 ≤ fuel → fuel_ok (array_loop fuel acc ls).1 = true) := by
  induction fuel with
  | zero =>
    refine ⟨?_, ?_, ?_, ?_, ?_, ?_, ?_, ?_, ?_, ?_, ?_, ?_, ?_, ?_, ?_, ?_, ?_, ?_⟩ <;>
      intros <;> omega
  | succ fuel ih =>
    obtain ⟨ih_expr, ih_nud, ih_led, ih_stmt, ih_run, ih_let, ih_ret, ih_if, ih_blk,
      ih_fun, ih_params, ih_ploop, ih_args, ih_aloop, ih_print, ih_es, ih_arr,
      ih_arrLoop⟩ := ih
    refine ⟨?_, ?_, ?_, ?_, ?_, ?_, ?_, ?_, ?_, ?_, ?_, ?_, ?_, ?_, ?_, ?_, ?_, ?_⟩
    · -- parse_expression
      intro b ls hle
      rcases ls with _ | ⟨e | ⟨tok, line⟩, tl⟩
      · rfl
      · rfl
      · simp only [List.length_cons] at hle
        cases tok <;>
          first
          | exact pbind_fuel_ok _ _ (expect_peek_fuel_ok _ _) (fun _ ls1 heq1 =>
              have h1 : ls1.length ≤ tl.length :=
                le_of_lt (expect_peek_ok_len _ _ _ _ heq1)
              pbind_fuel_ok _ _ (ih_expr 0 ls1 (by omega)) (fun _ ls2 heq2 =>
              have h2 : ls2.length ≤ ls1.length := snd_len_le heq2 (mono_expr fuel 0 ls1)
              pbind_fuel_ok _ _ (expect_peek_fuel_ok _ _) (fun _ ls3 heq3 =>
              have h3 : ls3.length ≤ ls2.length := snd_len_le heq3 (expect_peek_mono _ _)
              pbind_fuel_ok _ _ (ih_expr 0 ls3 (by omega)) (fun _ ls4 heq4 =>
              pbind_fuel_ok _ _ (expect_peek_fuel_ok _ _) (fun _ ls5 heq5 =>
              pbind_fuel_ok _ _ (expect_peek_fuel_ok _ _) (fun _ ls6 heq6 => rfl))))))
          | exact pbind_fuel_ok _ _ (ih_nud _ line tl (by omega)) (fun t0 ls1 heq1 =>
              have h1 : ls1.length ≤ tl.length := snd_len_le heq1 (mono_nud fuel _ line tl)
              ih_led b t0 ls1 (by omega))
    · -- nud_step
      intro t line rest hle
      cases t <;>
        first
        | rfl
        | exact ih_fun rest (by omega)
        | exact ih_if rest (by omega)
        | exact ih_arr rest (by omega)
        | exact pbind_fuel_ok _ _ (ih_expr _ rest (by omega)) (fun _ _ _ => rfl)
        | exact pbind_fuel_ok _ _ (ih_expr 0 rest (by omega)) (fun _ ls1 heq1 =>
            pbind_fuel_ok _ _ (expect_peek_fuel_ok _ _) (fun _ _ _ => rfl))
        | exact pbind_fuel_ok _ _ (expect_peek_fuel_ok _ _) (fun _ ls1 heq1 =>
            have h1 : ls1.length ≤ rest.length :=
              le_of_lt (expect_peek_ok_len _ _ _ _ heq1)
            pbind_fuel_ok _ _ (ih_expr 0 ls1 (by omega)) (fun _ ls2 heq2 =>
            pbind_fuel_ok _ _ (expect_peek_fuel_ok _ _) (fun _ _ _ => rfl)))
    · -- led_loop
      intro b a ls hle
      rcases ls with _ | ⟨e | ⟨tok, line⟩, tl⟩
      · rfl
      · rfl
      · simp only [List.length_cons] at hle
        obtain ⟨f2, rfl⟩ : ∃ f2, fuel = f2 + 1 := ⟨fuel - 1, by omega⟩
        cases tok <;>
          first
          | rfl
          | -- infix operators
            exact ite_fuel_ok _ _ rfl (pbind_fuel_ok _ _ (ih_expr _ tl (by omega))
              (fun r ls1 heq1 =>
                have h1 : ls1.length ≤ tl.length := snd_len_le heq1 (mono_expr _ _ tl)
                ih_led b _ ls1 (by omega)))
          | -- call application (LParen)
            exact ite_fuel_ok _ _ rfl (pbind_fuel_ok _ _ (expect_peek_fuel_ok _ _)
              (fun _ ls1 heq1 =>
                have h1 : ls1.length ≤ tl.length :=
                  by have := expect_peek_ok_len _ _ _ _ heq1; simp at this; omega
                pbind_fuel_ok _ _ (ih_args ls1 (by omega)) (fun args ls2 heq2 =>
                have h2 : ls2.length ≤ ls1.length := snd_len_le heq2 (mono_args _ ls1)
                pbind_fuel_ok _ _ (expect_peek_fuel_ok _ _) (fun _ ls3 heq3 =>
                have h3 : ls3.length ≤ ls2.length := snd_len_le heq3 (expect_peek_mono _ _)
                ih_led b _ ls3 (by omega)))))
          | -- reassignment (Assign)
            exact ite_fuel_ok _ _ rfl (pbind_fuel_ok _ _ (ih_expr 0 _ (by (try simp only [List.length_cons] at *); omega))
              (fun r ls1 heq1 =>
                have h1 : ls1.length ≤ tl.length := snd_len_le heq1 (strict_expr f2 0 _ tl)
                pbind_fuel_ok _ _ (expect_peek_fuel_ok _ _) (fun _ ls2 heq2 =>
                have h2 : ls2.length ≤ ls1.length := snd_len_le heq2 (expect_peek_mono _ _)
                ih_led b _ ls2 (by omega))))
          | -- indexing (LBracket)
            exact ite_fuel_ok _ _ rfl (pbind_fuel_ok _ _ (expect_peek_fuel_ok _ _)
              (fun _ ls1 heq1 =>
                have h1 : ls1.length ≤ tl.length :=
                  by have := expect_peek_ok_len _ _ _ _ heq1; simp at this; omega
                pbind_fuel_ok _ _ (ih_expr 0 ls1 (by omega)) (fun r ls2 heq2 =>
                have h2 : ls2.length ≤ ls1.length := snd_len_le heq2 (mono_expr _ 0 ls1)
                pbind_fuel_ok _ _ (expect_peek_fuel_ok _ _) (fun _ ls3 heq3 =>
                have h3 : ls3.length ≤ ls2.length := snd_len_le heq3 (expect_peek_mono _ _)
                ih_led b _ ls3 (by omega)))))
    · -- parse_statement
      intro ls hle
      rcases ls with _ | ⟨e | ⟨tk, l⟩, tl⟩
      · rfl
      · simp only [List.length_cons] at hle
        exact pbind_fuel_ok _ _ (ih_stmt tl (by omega)) (fun _ _ _ => rfl)
      · simp only [List.length_cons] at hle
        simp only [parse_statement]
        split
        · rfl
        · rename_i d hd
          obtain ⟨f2, rfl⟩ : ∃ f2, fuel = f2 + 2 := ⟨fuel - 2, by omega⟩
          rcases hrd : run_dispatch (f2 + 2) d (.ok ⟨tk, l⟩ :: tl) with ⟨rr, ls1⟩
          have hfo : fuel_ok rr = true := by
            have h := ih_run d (.ok ⟨tk, l⟩ :: tl) (by simp; omega)
            rw [hrd] at h
            exact h
          have hs : ls1.length ≤ tl.length := by
            have h := strict_run f2 d tk l tl hd
            rw [hrd] at h
            exact h
          match rr, hfo with
          | .ok ast, _ =>
            exact pbind_fuel_ok _ _ (ih_stmt ls1 (by omega)) (fun _ _ _ => rfl)
          | .error (.err m), _ =>
            exact pbind_fuel_ok _ _ (ih_stmt ls1 (by omega)) (fun _ _ _ => rfl)
          | .error (.panicked m), _ => rfl
    · -- run_dispatch
      intro d ls hle
      cases d <;>
        first
        | exact ih_fun ls (by omega)
        | exact ih_ret ls (by omega)
        | exact ih_if ls (by omega)
        | exact ih_print ls (by omega)
        | exact ih_let ls (by omega)
        | exact ih_es ls (by omega)
    · -- parse_let
      intro ls hle
      simp only [parse_let]
      have hlu : (if is_next_token .Let ls then ls.tail else ls).length ≤ ls.length := by
        split
        · exact tail_length_le ls
        · exact le_refl _
      generalize hu : (if is_next_token .Let ls then ls.tail else ls) = u at hlu
      rcases u with _ | ⟨e | ⟨tok, line⟩, tl⟩
      · rfl
      · rfl
      · simp only [List.length_cons] at hlu
        cases tok <;>
          first
          | rfl
          | exact pbind_fuel_ok _ _
              (by
                rcases tl with _ | ⟨e2 | ⟨tok2, line2⟩, tl2⟩
                · rfl
                · rfl
                · cases tok2 <;> first | rfl | exact ih_expr 0 _ (by (try simp only [List.length_cons] at *); omega))
              (fun v ls2 heq2 =>
                pbind_fuel_ok _ _ (expect_peek_fuel_ok _ _) (fun _ _ _ => rfl))
    · -- parse_return
      intro ls hle
      have ht := tail_length_le ls
      exact pbind_fuel_ok _ _ (ih_expr 0 ls.tail (by omega)) (fun _ ls1 heq1 =>
        pbind_fuel_ok _ _ (expect_peek_fuel_ok _ _) (fun _ _ _ => rfl))
    · -- parse_if
      intro ls hle
      simp only [parse_if]
      have hlu : (if is_next_token .If ls then ls.tail else ls).length ≤ ls.length := by
        split
        · exact tail_length_le ls
        · exact le_refl _
      generalize hu : (if is_next_token .If ls then ls.tail else ls) = u at hlu
      refine pbind_fuel_ok _ _ (ih_expr 0 u (by omega)) (fun c ls1 heq1 => ?_)
      have h1 : ls1.length ≤ u.length := snd_len_le heq1 (mono_expr fuel 0 u)
      refine pbind_fuel_ok _ _ (expect_peek_fuel_ok _ _) (fun _ ls2 heq2 => ?_)
      have h2 : ls2.length < ls1.length := expect_peek_ok_len _ _ _ _ heq2
      refine pbind_fuel_ok _ _ (ih_blk ls2 (by omega)) (fun yes ls3 heq3 => ?_)
      have h3 : ls3.length ≤ ls2.length := snd_len_le heq3 (mono_blk fuel ls2)
      refine pbind_fuel_ok _ _ (expect_peek_fuel_ok _ _) (fun _ ls4 heq4 => ?_)
      have h4 : ls4.length ≤ ls3.length := snd_len_le heq4 (expect_peek_mono _ _)
      rcases ls4 with _ | ⟨e4 | ⟨tok4, l4⟩, tl4⟩
      · rfl
      · rfl
      · simp only [List.length_cons] at h4
        cases tok4 <;>
          first
          | rfl
          | exact pbind_fuel_ok _ _ (expect_peek_fuel_ok _ _) (fun _ ls5 heq5 =>
              have h5 : ls5.length ≤ tl4.length := snd_len_le heq5 (expect_peek_mono _ _)
              pbind_fuel_ok _ _ (ih_blk ls5 (by omega)) (fun no ls6 heq6 =>
              pbind_fuel_ok _ _ (expect_peek_fuel_ok _ _) (fun _ _ _ => rfl)))
    · -- parse_block
      intro ls hle
      refine pbind_fuel_ok _ _ (ih_stmt ls (by omega)) (fun results ls1 heq1 => ?_)
      split <;> rfl
    · -- parse_fun
      intro ls hle
      simp only [parse_fun]
      have hlu : (if is_next_token .Fn ls then ls.tail else ls).length ≤ ls.length := by
        split
        · exact tail_length_le ls
        · exact le_refl _
      generalize hu : (if is_next_token .Fn ls then ls.tail else ls) = u at hlu
      have chain : ∀ (s : List Lexeme), s.length ≤ ls.length →
          ∀ (nm : Option String),
          fuel_ok (pbind (expect_peek .LParen s) fun _ ls1 =>
            pbind (parse_params fuel ls1) fun params ls2 =>
            pbind (expect_peek .RParen ls2) fun _ ls3 =>
            pbind (expect_peek .LBrace ls3) fun _ ls4 =>
            pbind (parse_block fuel ls4) fun body ls5 =>
            pbind (expect_peek .RBrace ls5) fun _ ls6 =>
            ((Except.ok (AST.Fn nm params body) : Except PErr AST), ls6)).1 = true := by
        intro s hs nm
        refine pbind_fuel_ok _ _ (expect_peek_fuel_ok _ _) (fun _ ls1 heq1 => ?_)
        have h1 : ls1.length < s.length := expect_peek_ok_len _ _ _ _ heq1
        refine pbind_fuel_ok _ _ (ih_params ls1 (by omega)) (fun params ls2 heq2 => ?_)
        have h2 : ls2.length ≤ ls1.length := snd_len_le heq2 (mono_params fuel ls1)
        refine pbind_fuel_ok _ _ (expect_peek_fuel_ok _ _) (fun _ ls3 heq3 => ?_)
        have h3 : ls3.length ≤ ls2.length := snd_len_le heq3 (expect_peek_mono _ _)
        refine pbind_fuel_ok _ _ (expect_peek_fuel_ok _ _) (fun _ ls4 heq4 => ?_)
        have h4 : ls4.length ≤ ls3.length := snd_len_le heq4 (expect_peek_mono _ _)
        refine pbind_fuel_ok _ _ (ih_blk ls4 (by omega)) (fun body ls5 heq5 => ?_)
        exact pbind_fuel_ok _ _ (expect_peek_fuel_ok _ _) (fun _ _ _ => rfl)
      rcases u with _ | ⟨e | ⟨tok, line⟩, tl⟩
      · exact chain [] (by omega) none
      · exact chain (.error e :: tl) hlu none
      · simp only [List.length_cons] at hlu
        cases tok <;>
          (apply chain <;> first | simp only [List.length_cons] | skip) <;>
            first | omega | skip
    · -- parse_params
      intro ls hle
      simp only [parse_params]
      split
      · exact ih_ploop [] ls (by omega)
      · rcases ls with _ | ⟨e | ⟨tok, line⟩, tl⟩
        · rfl
        · rfl
        · simp only [List.length_cons] at hle
          cases tok <;> first | rfl | exact ih_ploop _ tl (by omega)
    · -- params_loop
      intro acc ls hle
      simp only [params_loop]
      split
      · rename_i hc
        rcases ls with _ | ⟨e | ⟨tok, line⟩, tl⟩
        · simp [is_next_token] at hc
        · simp [is_next_token] at hc
        · simp only [List.length_cons] at hle
          rcases tl with _ | ⟨e2 | ⟨tok2, line2⟩, tl2⟩
          · rfl
          · rfl
          · simp only [List.length_cons] at hle
            cases tok2 <;> first | rfl | exact ih_ploop _ tl2 (by omega)
      · rfl
    · -- parse_args
      intro ls hle
      simp only [parse_args]
      split
      · exact ih_aloop [] ls (by omega)
      · refine pbind_fuel_ok _ _ (ih_expr 0 ls (by omega)) (fun a ls1 heq1 => ?_)
        have h1 : ls1.length ≤ ls.length := snd_len_le heq1 (mono_expr fuel 0 ls)
        exact ih_aloop [a] ls1 (by omega)
    · -- args_loop
      intro acc ls hle
      simp only [args_loop]
      split
      · rename_i hc
        rcases ls with _ | ⟨e | ⟨tok, line⟩, tl⟩
        · simp [is_next_token] at hc
        · simp [is_next_token] at hc
        · simp only [List.length_cons] at hle
          refine pbind_fuel_ok _ _
            (ih_expr 0 _ (by (try simp only [List.length_cons, List.tail_cons] at *); omega))
            (fun a ls1 heq1 => ?_)
          have h1 : ls1.length ≤ tl.length := snd_len_le heq1 (mono_expr fuel 0 tl)
          exact ih_aloop _ ls1 (by omega)
      · rfl
    · -- parse_print
      intro ls hle
      rcases ls with _ | ⟨hd, tl⟩
      · rfl
      · simp only [List.length_cons] at hle
        rcases tl with _ | ⟨e2 | ⟨tok2, l2⟩, tl2⟩
        · rfl
        · rfl
        · exact pbind_fuel_ok _ _
            (ih_expr 0 _ (by (try simp only [List.length_cons, List.tail_cons] at *); omega))
            (fun _ ls2 heq2 =>
              pbind_fuel_ok _ _ (expect_peek_fuel_ok _ _) (fun _ _ _ => rfl))
    · -- parse_expression_statements
      intro ls hle
      refine pbind_fuel_ok _ _ (ih_expr 0 ls (by omega)) (fun _ ls1 heq1 => ?_)
      split <;> rfl
    · -- parse_array
      intro ls hle
      exact ih_arrLoop [] ls (by omega)
    · -- array_loop
      intro acc ls hle
      simp only [array_loop]
      split
      · rfl
      · rcases ls with _ | ⟨e | ⟨tok, line⟩, tl⟩
        · refine pbind_fuel_ok _ _ (ih_expr 0 [] (by omega)) (fun v ls1 heq1 => ?_)
          have h1 : ls1.length ≤ 0 := snd_len_le heq1 (mono_expr fuel 0 [])
          have h0 : ls1 = [] := List.eq_nil_of_length_eq_zero (Nat.le_zero.mp h1)
          subst h0
          rfl
        · simp only [List.length_cons] at hle
          obtain ⟨f2, rfl⟩ : ∃ f2, fuel = f2 + 1 := ⟨fuel - 1, by omega⟩
          refine pbind_fuel_ok _ _
            (ih_expr 0 _ (by (try simp only [List.length_cons, List.tail_cons] at *); omega))
            (fun v ls1 heq1 => ?_)
          have h1 : ls1.length ≤ tl.length := snd_len_le heq1 (strict_expr f2 0 _ tl)
          rcases ls1 with _ | ⟨e2 | ⟨tok2, l2⟩, tl2⟩
          · rfl
          · rfl
          · simp only [List.length_cons] at h1
            cases tok2 <;>
              first
              | rfl
              | exact ih_arrLoop _ _ (by (try simp only [List.length_cons] at *); omega)
        · simp only [List.length_cons] at hle
          obtain ⟨f2, rfl⟩ : ∃ f2, fuel = f2 + 1 := ⟨fuel - 1, by omega⟩
          refine pbind_fuel_ok _ _
            (ih_expr 0 _ (by (try simp only [List.length_cons, List.tail_cons] at *); omega))
            (fun v ls1 heq1 => ?_)
          have h1 : ls1.length ≤ tl.length := snd_len_le heq1 (strict_expr f2 0 _ tl)
          rcases ls1 with _ | ⟨e2 | ⟨tok2, l2⟩, tl2⟩
          · rfl
          · rfl
          · simp only [List.length_cons] at h1
            cases tok2 <;>
              first
              | rfl
              | exact ih_arrLoop _ _ (by (try simp only [List.length_cons] at *); omega)

/-- C9: parsing terminates on every finite token stream — parse (with its
stream-proportional fuel), parse_expression, parse_statement and
parse_array never exhaust their fuel once it is at least five steps per
remaining stream item plus a small constant, because every loop iteration
and every cycle of recursive calls consumes at least one token. -/
theorem C9_parsing_terminates :
    (∀ ls : List Lexeme, fuel_ok (parse ls).1 = true) ∧
    (∀ (fuel b : Nat) (ls : List Lexeme), 5 * ls.length + 1 ≤ fuel →
      fuel_ok (parse_expression fuel b ls).1 = true) ∧
    (∀ (fuel : Nat) (ls : List Lexeme), 5 * ls.length + 4 ≤ fuel →
      fuel_ok (parse_statement fuel ls).1 = true) ∧
    (∀ (fuel : Nat) (ls : List Lexeme), 5 * ls.length + 3 ≤ fuel →
      fuel_ok (parse_array fuel ls).1 = true) := by
  refine ⟨?_, ?_, ?_, ?_⟩
  · intro ls
    exact (suff_all (bigFuel ls)).2.2.2.1 ls (by unfold bigFuel; omega)
  · intro fuel b ls h
    exact (suff_all fuel).1 b ls h
  · intro fuel ls h
    exact (suff_all fuel).2.2.2.1 ls h
  · intro fuel ls h
    exact (suff_all fuel).2.2.2.2.2.2.2.2.2.2.2.2.2.2.2.2.1 ls h

/-- C9 witness: the fueled clauses instantiated at a one-token stream. -/
theorem C9_parsing_terminates_witness :
    fuel_ok (parse [Except.ok ⟨Token.EOF, 1⟩]).1 = true ∧
    fuel_ok (parse_expression 6 0 [Except.ok ⟨Token.Number "1" 1, 1⟩]).1 = true ∧
    fuel_ok (parse_statement 9 [Except.ok ⟨Token.EOF, 1⟩]).1 = true ∧
    fuel_ok (parse_array 8 [Except.ok ⟨Token.RBracket, 1⟩]).1 = true :=
  ⟨C9_parsing_terminates.1 _,
   C9_parsing_terminates.2.1 6 0 _ (by decide),
   C9_parsing_terminates.2.2.1 9 _ (by decide),
   C9_parsing_terminates.2.2.2 8 _ (by decide)⟩
